import Mathlib

/-!
Verification of the fleet-scheduling core of `main.py`.

The shallow embedding below translates the scheduling engine of the source
file into Lean: timestamps become rationals (hours on the proleptic Gregorian
timeline, matching `datetime` ordering and `timedelta` arithmetic), floats
become rationals, dictionaries that are iterated in insertion order become
lists, and in-place mutation becomes explicit state passing.  External
collaborators (the airport-coordinate table and the great-circle distance
function from `geopy`) are abstracted into an `Env` record of pure functions,
exactly as the specification treats them.
-/

/-- Truncation toward zero, the behaviour of Python's `int()` on a number. -/
def pyTrunc (q : ℚ) : ℤ := if 0 ≤ q then ⌊q⌋ else ⌈q⌉

/-- Accumulator loop for Python's `int(str)` digit grammar: digits with single
underscores allowed between digits.  `lastDigit` records whether the previous
character was a digit (an underscore is only legal after a digit, and the
string must end with a digit). -/
def pyDigitsGo : List Char → Nat → Bool → Option Nat
  | [], acc, lastDigit => if lastDigit then some acc else none
  | c :: rest, acc, lastDigit =>
    if c.isDigit then pyDigitsGo rest (acc * 10 + (c.toNat - 48)) true
    else if c == '_' then
      if lastDigit then pyDigitsGo rest acc false else none
    else none

/-- Python's `int(str)` on a whitespace-free token: optional sign followed by
digits (with single underscores allowed between digits); `none` models the
`ValueError` raised on anything else. -/
def pyInt? (s : String) : Option ℤ :=
  match s.toList with
  | '+' :: rest => (pyDigitsGo rest 0 false).map (fun n => (n : ℤ))
  | '-' :: rest => (pyDigitsGo rest 0 false).map (fun n => -(n : ℤ))
  | l => (pyDigitsGo l 0 false).map (fun n => (n : ℤ))

/-- Worker for `pySplit`: walk the characters keeping the (reversed) current
token, emitting it at each whitespace run or at the end. -/
def pySplitGo : List Char → List Char → List String
  | [], cur => if cur.isEmpty then [] else [String.mk cur.reverse]
  | c :: rest, cur =>
    if c.isWhitespace then
      if cur.isEmpty then pySplitGo rest []
      else String.mk cur.reverse :: pySplitGo rest []
    else pySplitGo rest (c :: cur)

/-- Python's `str.split()` with no argument: split on whitespace runs,
dropping empty pieces. -/
def pySplit (s : String) : List String := pySplitGo s.toList []

/-- Python's `str.endswith(suffix)`. -/
def pyEndsWith (s suffix : String) : Bool := List.isSuffixOf suffix.toList s.toList

/-- Python's `str.strip()` with no argument: remove whitespace from both
ends. -/
def pyStrip (s : String) : String :=
  String.mk (((s.toList.dropWhile Char.isWhitespace).reverse.dropWhile Char.isWhitespace).reverse)

/-- Python's `str.upper()` on the ASCII identifiers this program handles. -/
def pyUpper (s : String) : String := String.mk (s.toList.map Char.toUpper)

/-- Day count of a proleptic-Gregorian civil date relative to 1970-01-01
(the standard days-from-civil computation used to model `datetime`). -/
def daysFromCivil (y m d : ℤ) : ℤ :=
  let y2 : ℤ := if m ≤ 2 then y - 1 else y
  let era : ℤ := y2.ediv 400
  let yoe : ℤ := y2 - era * 400
  let mp : ℤ := if m > 2 then m - 3 else m + 9
  let doy : ℤ := (153 * mp + 2).ediv 5 + d - 1
  let doe : ℤ := yoe * 365 + yoe.ediv 4 - yoe.ediv 100 + doy
  era * 146097 + doe - 719468

/-- Inverse of `daysFromCivil`: the civil date `(year, month, day)` of a day
count relative to 1970-01-01. -/
def civilFromDays (z0 : ℤ) : ℤ × ℤ × ℤ :=
  let z : ℤ := z0 + 719468
  let era : ℤ := z.ediv 146097
  let doe : ℤ := z - era * 146097
  let yoe : ℤ := (doe - doe.ediv 1460 + doe.ediv 36524 - doe.ediv 146096).ediv 365
  let y : ℤ := yoe + era * 400
  let doy : ℤ := doe - (365 * yoe + yoe.ediv 4 - yoe.ediv 100)
  let mp : ℤ := (5 * doy + 2).ediv 153
  let d : ℤ := doy - (153 * mp + 2).ediv 5 + 1
  let m : ℤ := if mp < 10 then mp + 3 else mp - 9
  (if m ≤ 2 then y + 1 else y, m, d)

/-- Timestamps: hours since 1970-01-01 00:00, as an exact rational. -/
abbrev Time := ℚ

/-- Number of days in a month of a given year (Gregorian leap rule), used by
`datetime`'s validation of parsed dates. -/
def daysInMonth (y m : ℤ) : ℤ :=
  if m = 2 then
    if y % 4 = 0 ∧ (y % 100 ≠ 0 ∨ y % 400 = 0) then 29 else 28
  else if m = 4 ∨ m = 6 ∨ m = 9 ∨ m = 11 then 30
  else 31

/-- Numeric value of a digit character. -/
def digitVal (c : Char) : Nat := c.toNat - 48

/-- Field matcher shared by the `strptime` numeric directives: try a two-digit
match first (accepted when `valid2` holds of its value, mirroring the ordered
regex alternation CPython compiles for `%m`, `%d`, `%H`, `%M`), else a single
digit accepted when `valid1` holds. -/
def parse2or1 (valid2 valid1 : Nat → Bool) : List Char → Option (Nat × List Char)
  | c1 :: c2 :: rest =>
    if c1.isDigit && c2.isDigit && valid2 (digitVal c1 * 10 + digitVal c2) then
      some (digitVal c1 * 10 + digitVal c2, rest)
    else if c1.isDigit && valid1 (digitVal c1) then some (digitVal c1, c2 :: rest)
    else none
  | [c1] => if c1.isDigit && valid1 (digitVal c1) then some (digitVal c1, []) else none
  | [] => none

/-- Literal separator matcher for `strptime`. -/
def parseLit (c : Char) : List Char → Option (List Char)
  | d :: rest => if d == c then some rest else none
  | [] => none

/-- Exactly four digits, the `%Y` directive. -/
def parseYear4 : List Char → Option (Nat × List Char)
  | c1 :: c2 :: c3 :: c4 :: rest =>
    if c1.isDigit && c2.isDigit && c3.isDigit && c4.isDigit then
      some (digitVal c1 * 1000 + digitVal c2 * 100 + digitVal c3 * 10 + digitVal c4, rest)
    else none
  | _ => none

/-- Model of `datetime.strptime(value, "%Y-%m-%dT%H:%M")` followed by the
`datetime` constructor's range validation; `none` models `ValueError`.  The
result is the timestamp in hours since 1970-01-01. -/
def parse_datetime_local (value : String) : Option Time :=
  match parseYear4 value.toList with
  | none => none
  | some (y, r1) =>
    match parseLit '-' r1 with
    | none => none
    | some r2 =>
      match parse2or1 (fun v => 1 ≤ v && v ≤ 12) (fun v => 1 ≤ v) r2 with
      | none => none
      | some (mo, r3) =>
        match parseLit '-' r3 with
        | none => none
        | some r4 =>
          match parse2or1 (fun v => 1 ≤ v && v ≤ 31) (fun v => 1 ≤ v) r4 with
          | none => none
          | some (d, r5) =>
            match parseLit 'T' r5 with
            | none => none
            | some r6 =>
              match parse2or1 (fun v => v ≤ 23) (fun _ => true) r6 with
              | none => none
              | some (hh, r7) =>
                match parseLit ':' r7 with
                | none => none
                | some r8 =>
                  match parse2or1 (fun v => v ≤ 59) (fun _ => true) r8 with
                  | none => none
                  | some (mm, r9) =>
                    if r9 ≠ [] then none
                    else if y = 0 then none
                    else if (d : ℤ) > daysInMonth y mo then none
                    else
                      some ((daysFromCivil y mo d * 24 + hh : ℤ) + (mm : ℚ) / 60)

/-- Two-digit zero padding as produced by `strftime`. -/
def pad2 (n : ℤ) : String :=
  if n < 10 then "0" ++ toString n else toString n

/-- Four-digit zero padding for years as produced by `strftime`'s `%Y`. -/
def pad4 (n : ℤ) : String :=
  if n < 10 then "000" ++ toString n
  else if n < 100 then "00" ++ toString n
  else if n < 1000 then "0" ++ toString n
  else toString n

/-- Decomposition of a timestamp into `(year, month, day, hour, minute)`,
truncating below the minute exactly as `strftime` display does. -/
def timeFields (t : Time) : ℤ × ℤ × ℤ × ℤ × ℤ :=
  let totalMinutes : ℤ := ⌊t * 60⌋
  let days : ℤ := totalMinutes.ediv 1440
  let rem : ℤ := totalMinutes.emod 1440
  let ymd := civilFromDays days
  (ymd.1, ymd.2.1, ymd.2.2, rem.ediv 60, rem.emod 60)

/-- Model of `_format_datetime_local`: `strftime("%Y-%m-%dT%H:%M")`. -/
def format_datetime_local (t : Time) : String :=
  let f := timeFields t
  pad4 f.1 ++ "-" ++ pad2 f.2.1 ++ "-" ++ pad2 f.2.2.1 ++ "T" ++ pad2 f.2.2.2.1 ++ ":" ++ pad2 f.2.2.2.2

/-- Model of `_format_datetime_display`: `strftime("%Y-%m-%d %H:%M")`. -/
def format_datetime_display (t : Time) : String :=
  let f := timeFields t
  pad4 f.1 ++ "-" ++ pad2 f.2.1 ++ "-" ++ pad2 f.2.2.1 ++ " " ++ pad2 f.2.2.2.1 ++ ":" ++ pad2 f.2.2.2.2

/-- Model of Python's `datetime.min` (year 1, January 1, 00:00) in hours
since 1970-01-01, the default `available_from` of a fresh `AircraftState`. -/
def dateTimeMin : Time := ((daysFromCivil 1 1 1 * 24 : ℤ) : ℚ)

/-- The fixed turnaround constant `GROUND_BUFFER = timedelta(hours=1)`. -/
def GROUND_BUFFER : Time := 1

/-- One row of the `AIRCRAFT_TYPES` tuple. -/
structure AircraftInfo where
  key : String
  label : String
  speed : ℚ
  seats : ℤ
deriving DecidableEq

/-- The `AIRCRAFT_TYPES` tuple of the source, in order. -/
def AIRCRAFT_TYPES : List AircraftInfo := [
  ⟨"citation_mustang", "Cessna Citation Mustang", 340, 4⟩,
  ⟨"citation_cj", "Cessna Citation CJ", 377, 5⟩,
  ⟨"citation_cj2", "Cessna Citation CJ2", 405, 6⟩,
  ⟨"citation_cj3", "Cessna Citation CJ3", 416, 7⟩,
  ⟨"citation_xls", "Cessna Citation XLS", 433, 8⟩,
  ⟨"phenom_300", "Embraer Phenom 300", 453, 7⟩,
  ⟨"airbus_a320", "Airbus A320", 447, 180⟩,
  ⟨"boeing_737", "Boeing 737", 455, 189⟩,
  ⟨"challenger_350", "Bombardier Challenger 350", 459, 9⟩,
  ⟨"challenger_604", "Bombardier Challenger 604", 459, 12⟩,
  ⟨"challenger_605", "Bombardier Challenger 605", 459, 12⟩]

/-- Model of `get_aircraft_info`: lookup in `_AIRCRAFT_INFO`, the dictionary
keyed by the `key` field of each `AIRCRAFT_TYPES` row. -/
def get_aircraft_info (key : Option String) : Option AircraftInfo :=
  match key with
  | none => none
  | some k => AIRCRAFT_TYPES.find? (fun info => info.key == k)

/-- Result record of `compute_flight_stats`. -/
structure FlightStats where
  total_hours : ℚ
  hours : ℤ
  minutes : ℤ
deriving DecidableEq

/-- Model of `compute_flight_stats`, float arithmetic made exact rational. -/
def compute_flight_stats (distance_nm speed_kts : ℚ) : FlightStats :=
  let base_time := distance_nm / speed_kts
  let buffer : ℚ := if base_time > 2/5 then 333/1000 else 1/5
  let total_hours := base_time + buffer
  let hours := pyTrunc total_hours
  let minutes := pyTrunc ((total_hours - (hours : ℚ)) * 60)
  ⟨total_hours, hours, minutes⟩

/-- Model of `_mission_required_pax`. -/
def mission_required_pax (mission_type : String) : ℤ :=
  if mission_type ≠ "" ∧ pyEndsWith mission_type " pax" then
    match pySplit mission_type with
    | tok :: _ => (pyInt? tok).getD 0
    | [] => 0
  else 0

/-- A fleet aircraft (`FleetAircraft` dataclass). -/
structure FleetAircraft where
  registration : String
  type_key : String
  max_pax : ℤ
deriving DecidableEq

/-- A schedule entry (`ScheduleEntry` dataclass). -/
structure ScheduleEntry where
  entry_id : ℕ
  departure_airport : String
  arrival_airport : String
  departure_time : Time
  aircraft_type : String
  mission_type : String
  pic : String
  sic : String
  ca1 : String
  requested_registration : Option String := none
  assigned_registration : Option String := none
  arrival_time : Option Time := none
  flight_time_hours : ℚ := 0
  flight_time_text : String := ""
  auto_generated : Bool := false
  notes : Option String := none
deriving DecidableEq

/-- Ephemeral per-pass aircraft state (`AircraftState` dataclass). -/
structure AircraftState where
  registration : String
  type_key : String
  max_pax : ℤ
  available_from : Time := dateTimeMin
  location : Option String := none
  accumulated_ferry : ℚ := 0
deriving DecidableEq

/-- The external collaborators of the engine: the airport-coordinate table
(`airports_coordinates` membership), the great-circle distance of `geopy`
(`_distance_between`), and the display label of `airport_lookup` used by
`_airport_display` for known codes. -/
structure Env where
  knownAirport : String → Bool
  dist : String → String → ℚ
  display : String → String

/-- Model of `_airport_display` (empty code short-circuits to the empty
string; otherwise the external lookup supplies the label, with the code
itself as fallback, folded into `Env.display`). -/
def airport_display (env : Env) (code : String) : String :=
  if code = "" then "" else env.display code

/-- The module-level mutable registries that a recomputation pass reads and
writes: `FLEET`, `SCHEDULE_ENTRIES` (insertion order), `AUTO_SEGMENTS`,
`SCHEDULE_ERRORS` and the `AUTO_ID_COUNTER` position. -/
structure SystemState where
  fleet : List FleetAircraft
  entries : List ScheduleEntry
  autoSegments : List ScheduleEntry
  errors : List String
  autoId : ℕ
deriving DecidableEq

/-- Model of `_refresh_entry_metrics`: `Except.error` models the raised
`ValueError`, in which case the entry is left untouched (the checks precede
every mutation in the source). -/
def refresh_entry_metrics (env : Env) (entry : ScheduleEntry) : Except String ScheduleEntry :=
  if ¬ (env.knownAirport entry.departure_airport ∧ env.knownAirport entry.arrival_airport) then
    .error "Unknown airport code provided in schedule entry."
  else
    match get_aircraft_info (some entry.aircraft_type) with
    | none => .error "Unsupported aircraft type in schedule entry."
    | some info =>
      let distance := env.dist entry.departure_airport entry.arrival_airport
      let stats := compute_flight_stats distance info.speed
      .ok { entry with
        flight_time_hours := stats.total_hours,
        flight_time_text := toString stats.hours ++ "h " ++ toString stats.minutes ++ "m",
        arrival_time := some (entry.departure_time + stats.total_hours) }

/-- Clearing of `assigned_registration` performed on every entry by both
`recalculate_schedule` and `_optimise_assignments`. -/
def clear_assignment (e : ScheduleEntry) : ScheduleEntry :=
  { e with assigned_registration := none }

/-- One iteration of the metrics-refresh loop of `recalculate_schedule`: the
entry's assignment is cleared, then its metrics recomputed; a failure leaves
the (cleared) entry as it was and accumulates the error message. -/
def refresh_step (env : Env) (acc : List ScheduleEntry × List String)
    (entry : ScheduleEntry) : List ScheduleEntry × List String :=
  match refresh_entry_metrics env (clear_assignment entry) with
  | .ok e2 => (acc.1 ++ [e2], acc.2)
  | .error msg => (acc.1 ++ [clear_assignment entry], acc.2 ++ [msg])

/-- The metrics-refresh loop of `recalculate_schedule` over all entries. -/
def refresh_all (env : Env) (entries : List ScheduleEntry) :
    List ScheduleEntry × List String :=
  entries.foldl (refresh_step env) ([], [])

/-- Model of `_build_aircraft_states`: one fresh state per fleet aircraft of
the type, in fleet insertion order (the iteration order of the `FLEET` dict). -/
def build_aircraft_states (fleet : List FleetAircraft) (type_key : String) :
    List AircraftState :=
  (fleet.filter (fun a => a.type_key == type_key)).map
    (fun a => { registration := a.registration, type_key := a.type_key, max_pax := a.max_pax })

/-- Model of `_evaluate_candidate`: `none` is an infeasible candidate, and a
feasible one yields `(reposition_start, reposition_end, ferry_hours)`. -/
def evaluate_candidate (env : Env) (state : AircraftState) (entry : ScheduleEntry)
    (info : AircraftInfo) : Option (Time × Time × ℚ) :=
  let latest_finish := entry.departure_time - GROUND_BUFFER
  match state.location with
  | none =>
    if state.available_from > latest_finish then none
    else some (state.available_from, state.available_from, 0)
  | some loc =>
    if loc == entry.departure_airport then
      if state.available_from > latest_finish then none
      else
        let ready_time := max state.available_from latest_finish
        some (ready_time, ready_time, 0)
    else
      let distance := env.dist loc entry.departure_airport
      let stats := compute_flight_stats distance info.speed
      let reposition_duration := stats.total_hours
      if state.available_from + reposition_duration > latest_finish then none
      else
        let reposition_start := max state.available_from (latest_finish - reposition_duration)
        some (reposition_start, reposition_start + reposition_duration, stats.total_hours)

/-- One iteration of the candidate-selection loop of
`_optimise_assignments`: an infeasible candidate is skipped, and a feasible
one replaces the incumbent only when it strictly improves
`accumulated_ferry + ferry_cost` (so ties keep the earlier candidate). -/
def select_step (env : Env) (entry : ScheduleEntry) (info : AircraftInfo)
    (best : Option (AircraftState × (Time × Time × ℚ))) (state : AircraftState) :
    Option (AircraftState × (Time × Time × ℚ)) :=
  match evaluate_candidate env state entry info with
  | none => best
  | some window =>
    match best with
    | none => some (state, window)
    | some (bs, bw) =>
      if state.accumulated_ferry + window.2.2 < bs.accumulated_ferry + bw.2.2 then
        some (state, window)
      else some (bs, bw)

/-- The candidate-selection loop of `_optimise_assignments`. -/
def select_candidate (env : Env) (cands : List AircraftState) (entry : ScheduleEntry)
    (info : AircraftInfo) : Option (AircraftState × (Time × Time × ℚ)) :=
  cands.foldl (select_step env entry info) none

/-- State threaded through `_optimise_assignments`: the per-type aircraft
states, the accumulated diagnostics, the synthesized segments, the
`AUTO_ID_COUNTER` position, and the commitments made so far (the in-place
`entry.assigned_registration` writes, as `(entry, registration)` pairs). -/
structure PassState where
  states : List AircraftState
  errors : List String
  autos : List ScheduleEntry
  autoId : ℕ
  assignments : List (ScheduleEntry × String)
deriving DecidableEq

/-- The synthetic `ScheduleEntry` built for a repositioning leg. -/
def mkAutoEntry (env : Env) (autoId : ℕ) (chosen : AircraftState) (entry : ScheduleEntry)
    (reposition_start reposition_end : Time) (reposition_hours : ℚ) : ScheduleEntry :=
  { entry_id := autoId,
    departure_airport := chosen.location.getD "",
    arrival_airport := entry.departure_airport,
    departure_time := reposition_start,
    aircraft_type := entry.aircraft_type,
    mission_type := "Auto Ferry",
    pic := "-",
    sic := "-",
    ca1 := "-",
    requested_registration := some chosen.registration,
    assigned_registration := some chosen.registration,
    arrival_time := some reposition_end,
    flight_time_hours := reposition_hours,
    flight_time_text :=
      toString (pyTrunc reposition_hours) ++ "h " ++
        toString (pyTrunc ((reposition_hours - (pyTrunc reposition_hours : ℚ)) * 60)) ++ "m",
    auto_generated := true,
    notes := some ("Reposition " ++ airport_display env (chosen.location.getD "") ++
      " → " ++ airport_display env entry.departure_airport) }

/-- Tail of the per-mission loop body once the candidate list is known:
choose a candidate, on failure record the infeasibility diagnostic, otherwise
synthesize a ferry leg when repositioning is needed and commit. -/
def commit_candidate (env : Env) (info : AircraftInfo) (ps : PassState)
    (entry : ScheduleEntry) (cands : List AircraftState) : PassState :=
  match select_candidate env cands entry info with
  | none =>
    { ps with errors := ps.errors ++
        ["No feasible assignment for mission departing " ++ entry.departure_airport ++
          " at " ++ format_datetime_display entry.departure_time ++ "."] }
  | some (chosen, window) =>
    let reposition_start := window.1
    let reposition_end := window.2.1
    let reposition_hours := window.2.2
    let withAuto : List ScheduleEntry × ℕ :=
      if reposition_hours > 0 then
        (ps.autos ++ [mkAutoEntry env ps.autoId chosen entry reposition_start reposition_end reposition_hours],
          ps.autoId + 1)
      else (ps.autos, ps.autoId)
    let newState : AircraftState :=
      { chosen with
        location := some entry.arrival_airport,
        available_from := entry.arrival_time.getD 0 + GROUND_BUFFER,
        accumulated_ferry := chosen.accumulated_ferry + reposition_hours }
    { ps with
      states := ps.states.map (fun st => if st.registration == chosen.registration then newState else st),
      autos := withAuto.1,
      autoId := withAuto.2,
      assignments := ps.assignments ++ [(entry, chosen.registration)] }

/-- The unrequested branch of the per-mission loop: candidates are all pool
aircraft with enough seats. -/
def general_candidates (env : Env) (info : AircraftInfo) (ps : PassState)
    (entry : ScheduleEntry) (required_pax : ℤ) : PassState :=
  if (ps.states.filter (fun st => required_pax ≤ st.max_pax)).isEmpty then
    { ps with errors := ps.errors ++
        ["No aircraft with enough seats for " ++ toString required_pax ++
          " passengers in type " ++ info.label ++ "."] }
  else
    commit_candidate env info ps entry
      (ps.states.filter (fun st => required_pax ≤ st.max_pax))

/-- The body of the per-mission loop of `_optimise_assignments`.  The Python
guard `if entry.requested_registration:` is a truthiness test, so an empty
string requested registration falls through to the general branch. -/
def process_entry (env : Env) (info : AircraftInfo) (ps : PassState)
    (entry : ScheduleEntry) : PassState :=
  match entry.requested_registration with
  | none => general_candidates env info ps entry (mission_required_pax entry.mission_type)
  | some req =>
    if req = "" then general_candidates env info ps entry (mission_required_pax entry.mission_type)
    else
      match ps.states.find? (fun st => st.registration == req) with
      | none =>
        { ps with errors := ps.errors ++
            ["Requested registration " ++ req ++ " is not available for " ++ info.label ++ "."] }
      | some requested =>
        if requested.max_pax < mission_required_pax entry.mission_type then
          { ps with errors := ps.errors ++
              ["Requested aircraft " ++ req ++ " cannot carry " ++
                toString (mission_required_pax entry.mission_type) ++ " passengers."] }
        else commit_candidate env info ps entry [requested]

/-- Insertion step of a stable sort: `x` goes before the first element whose
key is not smaller, so earlier input elements stay first among equal keys. -/
def insertStable {α : Type} (le : α → α → Bool) (x : α) : List α → List α
  | [] => [x]
  | y :: ys => if le x y then x :: y :: ys else y :: insertStable le x ys

/-- Stable sort (insertion sort), modelling Python's stable `sorted`. -/
def sortStable {α : Type} (le : α → α → Bool) (l : List α) : List α :=
  l.foldr (insertStable le) []

/-- The order in which missions of one type are processed:
`sorted(entries, key=lambda e: e.departure_time)` over that type's group,
which inherits the registry insertion order on ties. -/
def mission_processing_order (entries : List ScheduleEntry) (tk : String) :
    List ScheduleEntry :=
  sortStable (fun a b => decide (a.departure_time ≤ b.departure_time))
    (entries.filter (fun e => e.aircraft_type == tk))

/-- The documented processing order on missions: strictly earlier departure
timestamp, or equal timestamps and strictly earlier creation (id) order. -/
def entry_lex (a b : ScheduleEntry) : Prop :=
  a.departure_time < b.departure_time ∨
    (a.departure_time = b.departure_time ∧ a.entry_id < b.entry_id)

/-- The first-occurrence order of aircraft types among the entries, the
iteration order of the `entries_by_type` dict. -/
def type_keys_in_order (entries : List ScheduleEntry) : List String :=
  entries.foldl
    (fun acc e => if acc.contains e.aircraft_type then acc else acc ++ [e.aircraft_type]) []

/-- The per-type body of `_optimise_assignments`: unknown types are skipped,
an empty pool records a diagnostic and skips the type, otherwise the type's
missions are processed in departure-time order against fresh aircraft
states. -/
def run_type (env : Env) (fleet : List FleetAircraft) (entriesAll : List ScheduleEntry)
    (ps : PassState) (tk : String) : PassState :=
  match get_aircraft_info (some tk) with
  | none => ps
  | some info =>
    if (build_aircraft_states fleet tk).isEmpty then
      { ps with errors := ps.errors ++
          ["No aircraft of type " ++ info.label ++ " available in the fleet for scheduled missions."] }
    else
      (mission_processing_order entriesAll tk).foldl (process_entry env info)
        { ps with states := build_aircraft_states fleet tk }

/-- Result of `_optimise_assignments` together with the updated entries and
counter position. -/
structure OptimiseResult where
  entries : List ScheduleEntry
  autos : List ScheduleEntry
  errors : List String
  autoId : ℕ
deriving DecidableEq

/-- Replay of the in-place `entry.assigned_registration` writes onto an
entry, by entry id. -/
def apply_assignments (asg : List (ScheduleEntry × String)) (e : ScheduleEntry) :
    ScheduleEntry :=
  match asg.find? (fun p => p.1.entry_id == e.entry_id) with
  | some p => { e with assigned_registration := some p.2 }
  | none => e

/-- The per-type fold of `_optimise_assignments` over the already-cleared
entries, starting from the empty pass state with the counter at `autoId`. -/
def optimise_pass (env : Env) (fleet : List FleetAircraft)
    (cleared : List ScheduleEntry) (autoId : ℕ) : PassState :=
  (type_keys_in_order cleared).foldl (run_type env fleet cleared)
    { states := [], errors := [], autos := [], autoId := autoId, assignments := [] }

/-- Model of `_optimise_assignments`. -/
def optimise_assignments (env : Env) (fleet : List FleetAircraft)
    (entries : List ScheduleEntry) (autoId : ℕ) : OptimiseResult :=
  { entries := (entries.map clear_assignment).map
      (apply_assignments (optimise_pass env fleet (entries.map clear_assignment) autoId).assignments),
    autos := (optimise_pass env fleet (entries.map clear_assignment) autoId).autos,
    errors := (optimise_pass env fleet (entries.map clear_assignment) autoId).errors,
    autoId := (optimise_pass env fleet (entries.map clear_assignment) autoId).autoId }

/-- Model of `recalculate_schedule`: clear and refresh every entry, abort the
pass (empty `AUTO_SEGMENTS`) when any refresh failed, otherwise run the
optimisation. -/
def recalculate_schedule (env : Env) (s : SystemState) : SystemState :=
  if (refresh_all env s.entries).2.isEmpty then
    { s with
      entries := (optimise_assignments env s.fleet (refresh_all env s.entries).1 s.autoId).entries,
      autoSegments := (optimise_assignments env s.fleet (refresh_all env s.entries).1 s.autoId).autos,
      errors := (optimise_assignments env s.fleet (refresh_all env s.entries).1 s.autoId).errors,
      autoId := (optimise_assignments env s.fleet (refresh_all env s.entries).1 s.autoId).autoId }
  else
    { s with
      entries := (refresh_all env s.entries).1,
      autoSegments := [],
      errors := (refresh_all env s.entries).2 }

/-- One schedule row of the `/api/state` payload (`_entry_to_json`).  In the
source the `entry_id` value is an `int` for real missions and the string
`"auto-<id>"` for auto segments; both renderings live in one string here,
which keeps exactly the same distinctions. -/
structure EntryJson where
  entry_id : String
  auto_generated : Bool
  aircraft_type : String
  aircraft_label : String
  mission_type : String
  departure_airport : String
  departure_airport_display : String
  arrival_airport : String
  arrival_airport_display : String
  departure_time_value : String
  departure_time_display : String
  arrival_time_display : String
  flight_time : String
  requested_registration : String
  assigned_registration : String
  pic : String
  sic : String
  ca1 : String
  notes : String
  editable : Bool
deriving DecidableEq

/-- Model of `_entry_to_json`. -/
def entry_to_json (env : Env) (entry : ScheduleEntry) : EntryJson :=
  { entry_id :=
      if entry.auto_generated then "auto-" ++ toString entry.entry_id
      else toString entry.entry_id,
    auto_generated := entry.auto_generated,
    aircraft_type := entry.aircraft_type,
    aircraft_label :=
      match get_aircraft_info (some entry.aircraft_type) with
      | some info => info.label
      | none => entry.aircraft_type,
    mission_type := entry.mission_type,
    departure_airport := entry.departure_airport,
    departure_airport_display := airport_display env entry.departure_airport,
    arrival_airport := entry.arrival_airport,
    arrival_airport_display := airport_display env entry.arrival_airport,
    departure_time_value := format_datetime_local entry.departure_time,
    departure_time_display := format_datetime_display entry.departure_time,
    arrival_time_display :=
      match entry.arrival_time with
      | some t => format_datetime_display t
      | none => "",
    flight_time := entry.flight_time_text,
    requested_registration := (entry.requested_registration.getD ""),
    assigned_registration := (entry.assigned_registration.getD ""),
    pic := entry.pic,
    sic := entry.sic,
    ca1 := entry.ca1,
    notes := entry.notes.getD "",
    editable := !entry.auto_generated }

/-- One fleet row of the `/api/state` payload.  The `type_label` access
`aircraft.info["label"]` would raise on an unknown type key; fleet aircraft
always carry a validated type (checked by `api_add_aircraft`), so the dead
branch yields the empty string. -/
structure FleetJson where
  registration : String
  type_key : String
  type_label : String
  max_pax : ℤ
deriving DecidableEq

/-- The timeline comparison key of `build_state_payload`:
`(departure_time, auto_generated)` with `False < True`, compared
lexicographically; Python's stable sort keeps input order on full ties. -/
def timeline_le (a b : ScheduleEntry) : Bool :=
  decide (a.departure_time < b.departure_time) ||
    (decide (a.departure_time = b.departure_time) && (!a.auto_generated || b.auto_generated))

/-- The full `/api/state` payload (`build_state_payload`). -/
structure StatePayload where
  fleet : List FleetJson
  schedule : List EntryJson
  errors : List String
deriving DecidableEq

/-- Model of `build_state_payload`. -/
def build_state_payload (env : Env) (s : SystemState) : StatePayload :=
  let timeline := sortStable timeline_le (s.entries ++ s.autoSegments)
  { fleet :=
      (sortStable (fun a b => !(decide (b.registration < a.registration))) s.fleet).map
        (fun a =>
          { registration := a.registration,
            type_key := a.type_key,
            type_label :=
              match get_aircraft_info (some a.type_key) with
              | some info => info.label
              | none => "",
            max_pax := a.max_pax }),
    schedule := timeline.map (entry_to_json env),
    errors := s.errors }

/-- A `PUT /api/schedule/<id>` body: `some` marks the keys present in the
JSON payload (all values arrive as strings). -/
structure UpdatePayload where
  departure_airport : Option String := none
  arrival_airport : Option String := none
  departure_time : Option String := none
  aircraft_type : Option String := none
  mission_type : Option String := none
  pic : Option String := none
  sic : Option String := none
  ca1 : Option String := none
  requested_registration : Option String := none
deriving DecidableEq

/-- The keys of `_update_entry_from_payload` that follow `departure_time` in
its fixed source order; none of them can raise. -/
def update_tail_fields (entry : ScheduleEntry) (p : UpdatePayload) : ScheduleEntry :=
  let entry :=
    match p.aircraft_type with
    | some v => { entry with aircraft_type := v }
    | none => entry
  let entry :=
    match p.mission_type with
    | some v => { entry with mission_type := v }
    | none => entry
  let entry :=
    match p.pic with
    | some v => { entry with pic := v }
    | none => entry
  let entry :=
    match p.sic with
    | some v => { entry with sic := v }
    | none => entry
  let entry :=
    match p.ca1 with
    | some v => { entry with ca1 := v }
    | none => entry
  match p.requested_registration with
  | some v =>
    let requested := pyUpper (pyStrip v)
    { entry with requested_registration := if requested = "" then none else some requested }
  | none => entry

/-- Model of `_update_entry_from_payload`: the stored entry is mutated field
by field in source order; a malformed `departure_time` raises `ValueError`
after the earlier fields were already applied, which the pair result records
as the partially updated entry together with the error. -/
def update_entry_from_payload (entry : ScheduleEntry) (p : UpdatePayload) :
    ScheduleEntry × Option String :=
  let entry :=
    match p.departure_airport with
    | some v => { entry with departure_airport := pyUpper v }
    | none => entry
  let entry :=
    match p.arrival_airport with
    | some v => { entry with arrival_airport := pyUpper v }
    | none => entry
  match p.departure_time with
  | some v =>
    match parse_datetime_local v with
    | none => (entry, some ("time data " ++ v ++ " does not match format %Y-%m-%dT%H:%M"))
    | some t => (update_tail_fields { entry with departure_time := t } p, none)
  | none => (update_tail_fields entry p, none)

/-- Model of the `PUT /api/schedule/<id>` handler `api_update_schedule`: a
missing id is a 404 with no change; otherwise the stored entry is updated in
place, a `ValueError` is surfaced as a 400 *without* undoing the writes
already made and without recomputation, and on success the full
recomputation runs.  The second component is the error response, if any. -/
def api_update_schedule (env : Env) (s : SystemState) (entry_id : ℕ)
    (p : UpdatePayload) : SystemState × Option String :=
  match s.entries.find? (fun e => e.entry_id == entry_id) with
  | none => (s, some "Schedule entry not found.")
  | some entry =>
    let updated := update_entry_from_payload entry p
    let s2 := { s with
      entries := s.entries.map (fun e => if e.entry_id == entry_id then updated.1 else e) }
    match updated.2 with
    | some msg => (s2, some msg)
    | none => (recalculate_schedule env s2, none)

/-- The missions committed to one registration during a pass, in commitment
order. -/
def commitsOf (r : String) (asg : List (ScheduleEntry × String)) : List ScheduleEntry :=
  asg.filterMap (fun p => if p.2 = r then some p.1 else none)

/-- A refreshed mission: its arrival time is its departure time plus its
(positive) flight hours.  This is the shape `_refresh_entry_metrics` leaves
every mission in when the pass proceeds to the optimisation. -/
def Refreshed (e : ScheduleEntry) : Prop :=
  e.arrival_time = some (e.departure_time + e.flight_time_hours) ∧ 0 < e.flight_time_hours

/-- The relation holding between consecutive commitments of one aircraft:
the earlier mission's arrival plus the ground buffer fits before the later
mission's departure minus the ground buffer, and a ferry AutoSegment links
the two whenever the arrival and next departure airports differ. -/
def chain_rel (autos : List ScheduleEntry) (r : String) (e1 e2 : ScheduleEntry) : Prop :=
  e1.arrival_time.getD 0 + GROUND_BUFFER ≤ e2.departure_time - GROUND_BUFFER ∧
  (e1.arrival_airport ≠ e2.departure_airport →
    ∃ a ∈ autos, a.assigned_registration = some r ∧ a.auto_generated = true ∧
      a.departure_airport = e1.arrival_airport ∧ a.arrival_airport = e2.departure_airport)

/-- An aircraft state tracks its registration's last commitment: fresh states
sit nowhere at `datetime.min`, committed ones sit at the last mission's
arrival airport, free from its arrival time plus the ground buffer. -/
def last_ok (st : AircraftState) (asg : List (ScheduleEntry × String)) : Prop :=
  match (commitsOf st.registration asg).getLast? with
  | none => st.location = none ∧ st.available_from = dateTimeMin
  | some e => st.location = some e.arrival_airport ∧
      st.available_from = e.arrival_time.getD 0 + GROUND_BUFFER

/-- Source facts recorded for every commitment: the committed mission is one
of the pass's (cleared) missions, and the chosen registration belongs to a
fleet aircraft of the mission's type with enough seats. -/
def commit_wf (fleet : List FleetAircraft) (cleared : List ScheduleEntry)
    (p : ScheduleEntry × String) : Prop :=
  p.1 ∈ cleared ∧ ∃ a ∈ fleet, a.registration = p.2 ∧ a.type_key = p.1.aircraft_type ∧
    mission_required_pax p.1.mission_type ≤ a.max_pax

/-- The cross-type invariant of the optimisation fold: every commitment is
well-formed and every registration's commitments form a buffered chain with
ferry segments. -/
def core_inv (fleet : List FleetAircraft) (cleared : List ScheduleEntry)
    (ps : PassState) : Prop :=
  (∀ p ∈ ps.assignments, commit_wf fleet cleared p) ∧
  (∀ r, List.Chain' (chain_rel ps.autos r) (commitsOf r ps.assignments))

/-- The per-type invariant: the pool states stem from fleet aircraft of the
current type, their registrations are distinct, and each tracks its last
commitment. -/
def states_inv (fleet : List FleetAircraft) (tk : String) (ps : PassState) : Prop :=
  (∀ st ∈ ps.states, ∃ a ∈ fleet, a.registration = st.registration ∧
      a.type_key = tk ∧ a.max_pax = st.max_pax) ∧
  (ps.states.map (fun st => st.registration)).Nodup ∧
  (∀ st ∈ ps.states, last_ok st ps.assignments)

/-- Modelled from the claim wording of C10: the required passenger count is
the integer `N` exactly when the whole category is `N` followed by a space
and `pax` (so the entire prefix before the final 4 characters must parse as
an integer), and `0` otherwise. -/
def spec_required_pax (s : String) : ℤ :=
  if pyEndsWith s " pax" then
    (pyInt? (String.mk (s.toList.take (s.toList.length - 4)))).getD 0
  else 0

/-- Erasure of the identity drawn from `AUTO_ID_COUNTER`: the entry with its
id normalised to 0. -/
def strip_auto_id (e : ScheduleEntry) : ScheduleEntry := { e with entry_id := 0 }

/-- Sameness of AutoSegments up to their counter-issued id. -/
@[reducible]
def AutoRel (a b : ScheduleEntry) : Prop :=
  strip_auto_id a = strip_auto_id b ∧ a.auto_generated = true ∧ b.auto_generated = true

/-- Sameness of timeline entries across two passes: real missions agree
exactly, AutoSegments agree up to their counter-issued id. -/
@[reducible]
def TimelineRel (a b : ScheduleEntry) : Prop := a = b ∨ AutoRel a b

/-- Sameness of two pass states up to AutoSegment ids: identical aircraft
states, diagnostics and commitments, and id-erased-equal AutoSegments. -/
@[reducible]
def PassRel (p q : PassState) : Prop :=
  p.states = q.states ∧ p.errors = q.errors ∧ p.assignments = q.assignments ∧
    List.Forall₂ AutoRel p.autos q.autos

/-- Erasure of the rendered AutoSegment id from a payload row. -/
def scrub_auto_json (j : EntryJson) : EntryJson :=
  if j.auto_generated then { j with entry_id := "" } else j

/-- Erasure of the rendered AutoSegment ids from a whole snapshot. -/
def scrub_payload (p : StatePayload) : StatePayload :=
  { p with schedule := p.schedule.map scrub_auto_json }

/-- A small concrete world shared by the witnesses: three known airports, a
constant 100 nm between any two distinct codes, identity display labels. -/
def demoEnv : Env :=
  { knownAirport := fun c => c == "AAA" || c == "BBB" || c == "CCC",
    dist := fun _ _ => 100,
    display := fun c => c }

/-- The `AIRCRAFT_TYPES` row for the Citation Mustang. -/
def mustangInfo : AircraftInfo := ⟨"citation_mustang", "Cessna Citation Mustang", 340, 4⟩

/-- Concrete mission 1: AAA to BBB at hour 100. -/
def demoMission1 : ScheduleEntry :=
  { entry_id := 1, departure_airport := "AAA", arrival_airport := "BBB",
    departure_time := 100, aircraft_type := "citation_mustang", mission_type := "Ferry",
    pic := "LUB", sic := "ZUD", ca1 := "AAA" }

/-- Concrete mission 2: CCC to AAA at hour 110 (forces a ferry BBB to CCC
after mission 1). -/
def demoMission2 : ScheduleEntry :=
  { entry_id := 2, departure_airport := "CCC", arrival_airport := "AAA",
    departure_time := 110, aircraft_type := "citation_mustang", mission_type := "2 pax",
    pic := "LUB", sic := "ZUD", ca1 := "AAA" }

/-- Concrete registries: one Mustang, the two missions above. -/
def demoState : SystemState :=
  { fleet := [⟨"N1", "citation_mustang", 4⟩], entries := [demoMission1, demoMission2],
    autoSegments := [], errors := [], autoId := 1000 }

/-- Registries for the C6 counterexample: two equally suitable Mustangs, the
one with the lexicographically larger registration added to the fleet
first. -/
def c6_state : SystemState :=
  { fleet := [⟨"BBB1", "citation_mustang", 4⟩, ⟨"AAA1", "citation_mustang", 4⟩],
    entries := [demoMission1], autoSegments := [], errors := [], autoId := 1000 }

/-- The refreshed form of `demoMission1` under `demoEnv`. -/
def c6_refreshed : ScheduleEntry :=
  match refresh_entry_metrics demoEnv demoMission1 with
  | .ok e => e
  | .error _ => demoMission1

/-- Fresh pass states of the two C6 aircraft, fleet order. -/
def c6_stateB : AircraftState := ⟨"BBB1", "citation_mustang", 4, dateTimeMin, none, 0⟩

/-- Fresh pass state of the lexicographically smaller C6 aircraft. -/
def c6_stateA : AircraftState := ⟨"AAA1", "citation_mustang", 4, dateTimeMin, none, 0⟩

/-- A pass state for the C5 witness: one Mustang known to sit at AAA. -/
def c5_aircraft : AircraftState := ⟨"N1", "citation_mustang", 4, 0, some "AAA", 0⟩

/-- The C5 witness mission: departs from BBB (not AAA) at hour 100. -/
def c5_entry : ScheduleEntry :=
  { entry_id := 7, departure_airport := "BBB", arrival_airport := "CCC",
    departure_time := 100, aircraft_type := "citation_mustang", mission_type := "Ferry",
    pic := "LUB", sic := "ZUD", ca1 := "AAA", arrival_time := some 101 }

/-- The C5 witness pass state. -/
def c5_ps : PassState :=
  { states := [c5_aircraft], errors := [], autos := [], autoId := 1000, assignments := [] }

/-- Registries for the C8 failing input: one stored mission. -/
def c8_state : SystemState :=
  { fleet := [], entries := [demoMission1], autoSegments := [], errors := [], autoId := 1000 }

/-- The C8 failing payload: a valid airport change followed (in the fixed
field order of `_update_entry_from_payload`) by a malformed timestamp. -/
def c8_payload : UpdatePayload :=
  { departure_airport := some "CCC", departure_time := some "not-a-date" }

/-- Registries for the C1 witness: the second mission references an airport
missing from the coordinate database. -/
def c1_badState : SystemState :=
  { fleet := [⟨"N1", "citation_mustang", 4⟩],
    entries := [demoMission1, { demoMission2 with departure_airport := "ZZZ" }],
    autoSegments := [], errors := [], autoId := 1000 }

/-! ## General lemmas about the refresh phase -/

/-- A successful refresh only rewrites the three metric fields. -/
theorem refresh_ok_fields (env : Env) (e e2 : ScheduleEntry)
    (h : refresh_entry_metrics env e = .ok e2) :
    e2 = { e with
      flight_time_hours := e2.flight_time_hours,
      flight_time_text := e2.flight_time_text,
      arrival_time := e2.arrival_time } := by
  unfold refresh_entry_metrics at h
  split at h
  · simp at h
  · split at h
    · simp at h
    · simp only [Except.ok.injEq] at h
      subst h
      rfl

/-- A successful refresh sets `arrival_time` to departure plus the computed
flight hours, with positive flight hours when distances are nonnegative. -/
theorem refresh_ok_metrics (env : Env) (e e2 : ScheduleEntry)
    (h : refresh_entry_metrics env e = .ok e2) :
    ∃ info, get_aircraft_info (some e.aircraft_type) = some info ∧
      e2.flight_time_hours =
        (compute_flight_stats (env.dist e.departure_airport e.arrival_airport) info.speed).total_hours ∧
      e2.arrival_time = some (e.departure_time + e2.flight_time_hours) := by
  unfold refresh_entry_metrics at h
  split at h
  · simp at h
  · split at h
    · simp at h
    · rename_i info hinfo
      simp only [Except.ok.injEq] at h
      subst h
      exact ⟨info, hinfo, rfl, rfl⟩

/-- Every type-table row has a positive cruise speed. -/
theorem aircraft_speed_pos (k : Option String) (info : AircraftInfo)
    (h : get_aircraft_info k = some info) : 0 < info.speed := by
  cases k with
  | none => simp [get_aircraft_info] at h
  | some s =>
    unfold get_aircraft_info at h
    have hmem : info ∈ AIRCRAFT_TYPES := List.mem_of_find?_eq_some h
    have hall : ∀ i ∈ AIRCRAFT_TYPES, (0 : ℚ) < i.speed := by decide!
    exact hall info hmem

/-- Flight-time totals are positive for nonnegative distance and positive
speed (the padding alone is at least 0.2 hours). -/
theorem total_hours_pos (d s : ℚ) (hd : 0 ≤ d) (hs : 0 < s) :
    0 < (compute_flight_stats d s).total_hours := by
  have hbase : (0:ℚ) ≤ d / s := div_nonneg hd hs.le
  have h1 : (compute_flight_stats d s).total_hours
      = d / s + (if d / s > 2/5 then (333/1000:ℚ) else 1/5) := rfl
  rw [h1]
  split <;> linarith

/-- Shape of the refresh fold: entries and errors are only appended. -/
theorem refresh_foldl_shape (env : Env) :
    ∀ (l : List ScheduleEntry) (acc : List ScheduleEntry × List String),
      ∃ es rs, l.foldl (refresh_step env) acc = (acc.1 ++ es, acc.2 ++ rs) := by
  intro l
  induction l with
  | nil => intro acc; exact ⟨[], [], by simp⟩
  | cons a t ih =>
    intro acc
    rw [List.foldl_cons]
    obtain ⟨es, rs, h⟩ := ih (refresh_step env acc a)
    rw [h]
    unfold refresh_step
    cases hr : refresh_entry_metrics env (clear_assignment a) with
    | ok e2 => exact ⟨e2 :: es, rs, by simp⟩
    | error msg => exact ⟨clear_assignment a :: es, msg :: rs, by simp⟩

/-- A failing entry's message survives into the fold's error list. -/
theorem refresh_foldl_error_mem (env : Env) (msg : String) :
    ∀ (l : List ScheduleEntry) (acc : List ScheduleEntry × List String) (e : ScheduleEntry),
      e ∈ l → refresh_entry_metrics env (clear_assignment e) = .error msg →
      msg ∈ (l.foldl (refresh_step env) acc).2 := by
  intro l
  induction l with
  | nil => intro acc e he; cases he
  | cons a t ih =>
    intro acc e he hbad
    rw [List.foldl_cons]
    rcases List.mem_cons.mp he with rfl | hmem
    · obtain ⟨es, rs, h⟩ := refresh_foldl_shape env t (refresh_step env acc e)
      rw [h]
      have hstep : msg ∈ (refresh_step env acc e).2 := by
        unfold refresh_step
        rw [hbad]
        simp
      exact List.mem_append_left rs hstep
    · exact ih (refresh_step env acc a) e hmem hbad

/-- After the refresh fold, every produced entry has a cleared assignment. -/
theorem refresh_foldl_assigned (env : Env) :
    ∀ (l : List ScheduleEntry) (acc : List ScheduleEntry × List String),
      (∀ e ∈ acc.1, e.assigned_registration = none) →
      ∀ e2 ∈ (l.foldl (refresh_step env) acc).1, e2.assigned_registration = none := by
  intro l
  induction l with
  | nil => intro acc hacc; exact hacc
  | cons a t ih =>
    intro acc hacc
    rw [List.foldl_cons]
    apply ih
    intro e2 he2
    unfold refresh_step at he2
    cases hr : refresh_entry_metrics env (clear_assignment a) with
    | ok eo =>
      rw [hr] at he2
      simp at he2
      rcases he2 with he2 | rfl
      · exact hacc _ he2
      · have := refresh_ok_fields env _ _ hr
        rw [this]
        rfl
    | error msg =>
      rw [hr] at he2
      simp at he2
      rcases he2 with he2 | rfl
      · exact hacc _ he2
      · rfl

/-- When some refresh failed, the pass stops at the refresh phase. -/
theorem recalculate_error_branch (env : Env) (s : SystemState)
    (h : (refresh_all env s.entries).2 ≠ []) :
    recalculate_schedule env s =
      { s with
        entries := (refresh_all env s.entries).1,
        autoSegments := [],
        errors := (refresh_all env s.entries).2 } := by
  unfold recalculate_schedule
  rw [if_neg]
  simpa [List.isEmpty_iff] using h

/-- When every refresh succeeded, the pass runs the optimisation. -/
theorem recalculate_ok_branch (env : Env) (s : SystemState)
    (h : (refresh_all env s.entries).2 = []) :
    recalculate_schedule env s =
      { s with
        entries := (optimise_assignments env s.fleet (refresh_all env s.entries).1 s.autoId).entries,
        autoSegments := (optimise_assignments env s.fleet (refresh_all env s.entries).1 s.autoId).autos,
        errors := (optimise_assignments env s.fleet (refresh_all env s.entries).1 s.autoId).errors,
        autoId := (optimise_assignments env s.fleet (refresh_all env s.entries).1 s.autoId).autoId } := by
  unfold recalculate_schedule
  rw [if_pos]
  simp [List.isEmpty_iff, h]

/-! ## C1: a metrics error aborts the whole pass -/

/-- C1: if any existing mission references an airport absent from the
coordinate database or an unrecognized aircraft type, the recomputation pass
records the corresponding metrics diagnostic and aborts before assignment:
afterwards every mission's assigned registration is `none` and no
AutoSegments exist. -/
theorem c1_metrics_error_aborts_pass (env : Env) (s : SystemState) (e : ScheduleEntry)
    (he : e ∈ s.entries)
    (hbad : env.knownAirport e.departure_airport = false ∨
      env.knownAirport e.arrival_airport = false ∨
      get_aircraft_info (some e.aircraft_type) = none) :
    (recalculate_schedule env s).errors ≠ [] ∧
    ("Unknown airport code provided in schedule entry." ∈ (recalculate_schedule env s).errors ∨
      "Unsupported aircraft type in schedule entry." ∈ (recalculate_schedule env s).errors) ∧
    (∀ e2 ∈ (recalculate_schedule env s).entries, e2.assigned_registration = none) ∧
    (recalculate_schedule env s).autoSegments = [] := by
  have hfail : ∃ msg, refresh_entry_metrics env (clear_assignment e) = .error msg ∧
      (msg = "Unknown airport code provided in schedule entry." ∨
        msg = "Unsupported aircraft type in schedule entry.") := by
    by_cases hk : env.knownAirport e.departure_airport ∧ env.knownAirport e.arrival_airport
    · rcases hbad with h | h | h
      · exact absurd hk.1 (by simp [h])
      · exact absurd hk.2 (by simp [h])
      · refine ⟨"Unsupported aircraft type in schedule entry.", ?_, Or.inr rfl⟩
        unfold refresh_entry_metrics
        rw [if_neg (show ¬¬(env.knownAirport (clear_assignment e).departure_airport ∧
            env.knownAirport (clear_assignment e).arrival_airport) from not_not_intro hk)]
        rw [show get_aircraft_info (some (clear_assignment e).aircraft_type) = none from h]
    · refine ⟨"Unknown airport code provided in schedule entry.", ?_, Or.inl rfl⟩
      unfold refresh_entry_metrics
      rw [if_pos (show ¬(env.knownAirport (clear_assignment e).departure_airport ∧
          env.knownAirport (clear_assignment e).arrival_airport) from hk)]
  obtain ⟨msg, hmsg, hwhich⟩ := hfail
  have hmem : msg ∈ (refresh_all env s.entries).2 :=
    refresh_foldl_error_mem env msg s.entries ([], []) e he hmsg
  have hne : (refresh_all env s.entries).2 ≠ [] := List.ne_nil_of_mem hmem
  rw [recalculate_error_branch env s hne]
  refine ⟨hne, ?_, ?_, rfl⟩
  · rcases hwhich with rfl | rfl
    · exact Or.inl hmem
    · exact Or.inr hmem
  · intro e2 he2
    exact refresh_foldl_assigned env s.entries ([], []) (by simp) e2 he2

/-- Witness for C1 at the concrete bad registry state. -/
theorem c1_metrics_error_aborts_pass_witness :
    (({ demoMission2 with departure_airport := "ZZZ" } : ScheduleEntry) ∈ c1_badState.entries) ∧
    demoEnv.knownAirport "ZZZ" = false ∧
    ((recalculate_schedule demoEnv c1_badState).errors ≠ [] ∧
      ("Unknown airport code provided in schedule entry." ∈ (recalculate_schedule demoEnv c1_badState).errors ∨
        "Unsupported aircraft type in schedule entry." ∈ (recalculate_schedule demoEnv c1_badState).errors) ∧
      (∀ e2 ∈ (recalculate_schedule demoEnv c1_badState).entries, e2.assigned_registration = none) ∧
      (recalculate_schedule demoEnv c1_badState).autoSegments = []) :=
  ⟨by decide!, by decide!,
    c1_metrics_error_aborts_pass demoEnv c1_badState
      { demoMission2 with departure_airport := "ZZZ" } (by decide!) (Or.inl (by decide!))⟩

/-! ## C4: the flight-time estimator -/

/-- C4: for nonnegative distance and positive speed, the estimator returns
`total_hours = d/s + 0.333` when `d/s > 0.4` and `d/s + 0.20` otherwise,
with `hours` the floor of the total and `minutes` the floor of the scaled
remainder. -/
theorem c4_flight_time_estimator (d s : ℚ) (hd : 0 ≤ d) (hs : 0 < s) :
    (compute_flight_stats d s).total_hours
        = d / s + (if d / s > 2/5 then 333/1000 else 1/5) ∧
    (compute_flight_stats d s).hours = ⌊(compute_flight_stats d s).total_hours⌋ ∧
    (compute_flight_stats d s).minutes =
      ⌊((compute_flight_stats d s).total_hours - ((compute_flight_stats d s).hours : ℚ)) * 60⌋ := by
  have h1 : (compute_flight_stats d s).total_hours
      = d / s + (if d / s > 2/5 then (333/1000 : ℚ) else 1/5) := rfl
  have hbase : (0:ℚ) ≤ d / s := div_nonneg hd hs.le
  have htot : (0:ℚ) ≤ (compute_flight_stats d s).total_hours := by
    rw [h1]; split <;> linarith
  have h2 : (compute_flight_stats d s).hours
      = pyTrunc (compute_flight_stats d s).total_hours := rfl
  have hfloor : (compute_flight_stats d s).hours = ⌊(compute_flight_stats d s).total_hours⌋ := by
    rw [h2]; unfold pyTrunc; rw [if_pos htot]
  refine ⟨h1, hfloor, ?_⟩
  have h3 : (compute_flight_stats d s).minutes
      = pyTrunc (((compute_flight_stats d s).total_hours
          - ((compute_flight_stats d s).hours : ℚ)) * 60) := rfl
  have hrem : (0:ℚ) ≤ ((compute_flight_stats d s).total_hours
      - ((compute_flight_stats d s).hours : ℚ)) * 60 := by
    have hle := Int.floor_le (compute_flight_stats d s).total_hours
    rw [hfloor]
    nlinarith
  rw [h3]; unfold pyTrunc; rw [if_pos hrem]

/-- Witness for C4 at distance 170 nm and 340 kts (long-sector branch). -/
theorem c4_flight_time_estimator_witness :
    (0:ℚ) ≤ 170 ∧ (0:ℚ) < 340 ∧
    ((compute_flight_stats 170 340).total_hours
        = 170 / 340 + (if (170:ℚ) / 340 > 2/5 then 333/1000 else 1/5) ∧
      (compute_flight_stats 170 340).hours = ⌊(compute_flight_stats 170 340).total_hours⌋ ∧
      (compute_flight_stats 170 340).minutes =
        ⌊((compute_flight_stats 170 340).total_hours
            - ((compute_flight_stats 170 340).hours : ℚ)) * 60⌋) :=
  ⟨by norm_num, by norm_num, c4_flight_time_estimator 170 340 (by norm_num) (by norm_num)⟩

/-! ## C10: the required-passenger derivation -/

/-- Counterexample to C10 as stated: the category `"3 extra pax"` ends in
`" pax"` and its prefix `"3 extra"` is not an integer, so the claim demands a
required count of 0, but the code parses the first whitespace token and
returns 3. -/
theorem c10_counterexample :
    mission_required_pax "3 extra pax" = 3 ∧
    spec_required_pax "3 extra pax" = 0 ∧
    mission_required_pax "3 extra pax" ≠ spec_required_pax "3 extra pax" := by
  decide!

/-- C10 (amended): the required count is the integer parse of the *first
whitespace-separated token* whenever the category is nonempty, ends in
`" pax"` and that token parses; otherwise it is 0. -/
theorem c10_required_pax_first_token (s : String) :
    (¬ (s ≠ "" ∧ pyEndsWith s " pax" = true) → mission_required_pax s = 0) ∧
    (∀ tok rest n, s ≠ "" → pyEndsWith s " pax" = true → pySplit s = tok :: rest →
      pyInt? tok = some n → mission_required_pax s = n) ∧
    (∀ tok rest, s ≠ "" → pyEndsWith s " pax" = true → pySplit s = tok :: rest →
      pyInt? tok = none → mission_required_pax s = 0) := by
  refine ⟨?_, ?_, ?_⟩
  · intro h
    unfold mission_required_pax
    rw [if_neg h]
  · intro tok rest n h1 h2 h3 h4
    unfold mission_required_pax
    rw [if_pos ⟨h1, h2⟩, h3]
    show (pyInt? tok).getD 0 = n
    rw [h4]
    rfl
  · intro tok rest h1 h2 h3 h4
    unfold mission_required_pax
    rw [if_pos ⟨h1, h2⟩, h3]
    show (pyInt? tok).getD 0 = 0
    rw [h4]
    rfl

/-- Witness for the amended C10 at `"3 extra pax"` and at `"Tech"`. -/
theorem c10_required_pax_first_token_witness :
    mission_required_pax "3 extra pax" = 3 ∧ mission_required_pax "Tech" = 0 :=
  ⟨(c10_required_pax_first_token "3 extra pax").2.1 "3" ["extra", "pax"] 3
      (by decide) (by decide) (by decide) (by decide),
    (c10_required_pax_first_token "Tech").1 (by decide)⟩

/-! ## C8: a rejected update leaves a partially mutated mission behind -/

/-- C8 (failing input): the update payload changes `departure_airport` and
then supplies a malformed `departure_time`.  The handler answers with an
error, yet the stored mission keeps the already-applied airport change (the
original value was `"AAA"`), so the state is *not* unchanged; no
recomputation runs (segments and diagnostics stay as they were). -/
theorem c8_partial_update_on_rejected_payload :
    (api_update_schedule demoEnv c8_state 1 c8_payload).2.isSome = true ∧
    (api_update_schedule demoEnv c8_state 1 c8_payload).1.entries.map
        (fun e => e.departure_airport) = ["CCC"] ∧
    demoMission1.departure_airport = "AAA" ∧
    (api_update_schedule demoEnv c8_state 1 c8_payload).1.entries ≠ c8_state.entries ∧
    (api_update_schedule demoEnv c8_state 1 c8_payload).1.autoSegments = c8_state.autoSegments ∧
    (api_update_schedule demoEnv c8_state 1 c8_payload).1.errors = c8_state.errors := by
  decide!

/-! ## C6 and C7: counterexamples -/

/-- Counterexample to C6 as stated: both Mustangs are feasible for the
mission with the same (zero) ferry metric, `"AAA1"` is lexicographically
smaller than `"BBB1"`, yet the pass assigns `"BBB1"` — the aircraft that was
inserted into the fleet first — because the selection loop iterates the pool
in fleet insertion order and only replaces on a strict improvement. -/
theorem c6_counterexample :
    evaluate_candidate demoEnv c6_stateB c6_refreshed mustangInfo
        = some (dateTimeMin, dateTimeMin, 0) ∧
    evaluate_candidate demoEnv c6_stateA c6_refreshed mustangInfo
        = some (dateTimeMin, dateTimeMin, 0) ∧
    c6_stateB.accumulated_ferry = c6_stateA.accumulated_ferry ∧
    ("AAA1" : String) < "BBB1" ∧
    (recalculate_schedule demoEnv c6_state).entries.map (fun e => e.assigned_registration)
        = [some "BBB1"] ∧
    (recalculate_schedule demoEnv c6_state).entries.map (fun e => e.assigned_registration)
        ≠ [some "AAA1"] := by
  decide!

/-- Counterexample to C7 as stated: running the recomputation twice on the
unchanged two-mission registry yields different snapshots, because the
global `AUTO_ID_COUNTER` is never reset and the second pass renders its
AutoSegment as `auto-1001` instead of `auto-1000`. -/
theorem c7_counterexample :
    build_state_payload demoEnv (recalculate_schedule demoEnv demoState) ≠
      build_state_payload demoEnv
        (recalculate_schedule demoEnv (recalculate_schedule demoEnv demoState)) := by
  decide!

/-! ## C6 (amended): the selection loop keeps the first minimum -/

/-- Characterisation of the selection fold from an arbitrary incumbent:
either the incumbent survives and no feasible candidate strictly beats it,
or the result is a feasible candidate from the list that strictly beats the
incumbent and every feasible candidate before it, and weakly beats every
feasible candidate after it. -/
theorem select_fold_spec (env : Env) (entry : ScheduleEntry) (info : AircraftInfo) :
    ∀ (l : List AircraftState) (b : Option (AircraftState × (Time × Time × ℚ)))
      (res : AircraftState × (Time × Time × ℚ)),
      l.foldl (select_step env entry info) b = some res →
      (b = some res ∧ ∀ st ∈ l, ∀ w2, evaluate_candidate env st entry info = some w2 →
          res.1.accumulated_ferry + res.2.2.2 ≤ st.accumulated_ferry + w2.2.2) ∨
      (∃ l1 l2, l = l1 ++ res.1 :: l2 ∧
        evaluate_candidate env res.1 entry info = some res.2 ∧
        (∀ bv, b = some bv →
          res.1.accumulated_ferry + res.2.2.2 < bv.1.accumulated_ferry + bv.2.2.2) ∧
        (∀ st ∈ l1, ∀ w2, evaluate_candidate env st entry info = some w2 →
          res.1.accumulated_ferry + res.2.2.2 < st.accumulated_ferry + w2.2.2) ∧
        (∀ st ∈ l2, ∀ w2, evaluate_candidate env st entry info = some w2 →
          res.1.accumulated_ferry + res.2.2.2 ≤ st.accumulated_ferry + w2.2.2)) := by
  intro l
  induction l with
  | nil =>
    intro b res h
    left
    exact ⟨h, fun st hst => absurd hst (List.not_mem_nil st)⟩
  | cons c t ih =>
    intro b res h
    rw [List.foldl_cons] at h
    cases hc : evaluate_candidate env c entry info with
    | none =>
      have hb : select_step env entry info b c = b := by
        unfold select_step; rw [hc]
      rw [hb] at h
      rcases ih b res h with ⟨h1, h2⟩ | ⟨l1, l2, heq, hres, hb2, hl1, hl2⟩
      · left
        refine ⟨h1, ?_⟩
        intro st hst w2 hw2
        rcases List.mem_cons.mp hst with rfl | hst
        · rw [hc] at hw2; cases hw2
        · exact h2 st hst w2 hw2
      · right
        refine ⟨c :: l1, l2, by rw [heq]; rfl, hres, hb2, ?_, hl2⟩
        intro st hst w2 hw2
        rcases List.mem_cons.mp hst with rfl | hst
        · rw [hc] at hw2; cases hw2
        · exact hl1 st hst w2 hw2
    | some wc =>
      cases b with
      | none =>
        have hb : select_step env entry info none c = some (c, wc) := by
          unfold select_step; rw [hc]
        rw [hb] at h
        rcases ih (some (c, wc)) res h with ⟨h1, h2⟩ | ⟨l1, l2, heq, hres, hb2, hl1, hl2⟩
        · right
          obtain rfl := Option.some.inj h1
          refine ⟨[], t, rfl, hc, ?_, ?_, ?_⟩
          · intro bv hbv; cases hbv
          · intro st hst; cases hst
          · intro st hst w2 hw2; exact h2 st hst w2 hw2
        · right
          refine ⟨c :: l1, l2, by rw [heq]; rfl, hres, ?_, ?_, hl2⟩
          · intro bv hbv; cases hbv
          · intro st hst w2 hw2
            rcases List.mem_cons.mp hst with rfl | hst
            · rw [hc] at hw2
              obtain rfl := Option.some.inj hw2
              exact hb2 _ rfl
            · exact hl1 st hst w2 hw2
      | some bv0 =>
        obtain ⟨bs, bw⟩ := bv0
        by_cases hm : c.accumulated_ferry + wc.2.2 < bs.accumulated_ferry + bw.2.2
        · have hb : select_step env entry info (some (bs, bw)) c = some (c, wc) := by
            unfold select_step; rw [hc]; simp only [if_pos hm]
          rw [hb] at h
          rcases ih (some (c, wc)) res h with ⟨h1, h2⟩ | ⟨l1, l2, heq, hres, hb2, hl1, hl2⟩
          · right
            obtain rfl := Option.some.inj h1
            refine ⟨[], t, rfl, hc, ?_, ?_, ?_⟩
            · intro bv hbv
              obtain rfl := Option.some.inj hbv
              exact hm
            · intro st hst; cases hst
            · intro st hst w2 hw2; exact h2 st hst w2 hw2
          · right
            refine ⟨c :: l1, l2, by rw [heq]; rfl, hres, ?_, ?_, hl2⟩
            · intro bv hbv
              obtain rfl := Option.some.inj hbv
              exact lt_trans (hb2 (c, wc) rfl) hm
            · intro st hst w2 hw2
              rcases List.mem_cons.mp hst with rfl | hst
              · rw [hc] at hw2
                obtain rfl := Option.some.inj hw2
                exact hb2 _ rfl
              · exact hl1 st hst w2 hw2
        · have hb : select_step env entry info (some (bs, bw)) c = some (bs, bw) := by
            unfold select_step; rw [hc]; simp only [if_neg hm]
          rw [hb] at h
          rcases ih (some (bs, bw)) res h with ⟨h1, h2⟩ | ⟨l1, l2, heq, hres, hb2, hl1, hl2⟩
          · left
            refine ⟨h1, ?_⟩
            intro st hst w2 hw2
            rcases List.mem_cons.mp hst with rfl | hst
            · rw [hc] at hw2
              obtain rfl := Option.some.inj hw2
              obtain rfl := Option.some.inj h1
              exact le_of_not_lt hm
            · exact h2 st hst w2 hw2
          · right
            refine ⟨c :: l1, l2, by rw [heq]; rfl, hres, hb2, ?_, hl2⟩
            intro st hst w2 hw2
            rcases List.mem_cons.mp hst with rfl | hst
            · rw [hc] at hw2
              obtain rfl := Option.some.inj hw2
              exact lt_of_lt_of_le (hb2 (bs, bw) rfl) (le_of_not_lt hm)
            · exact hl1 st hst w2 hw2

/-- C6 (amended): the chosen candidate is feasible, attains the minimum of
`accumulated_ferry + ferry_cost` over all feasible candidates, and is the
*first* candidate in iteration order (fleet insertion order) attaining that
minimum — every feasible candidate strictly before it has a strictly larger
metric.  Ties are therefore broken by fleet insertion order, not by
registration. -/
theorem c6_first_minimum_selected (env : Env) (cands : List AircraftState)
    (entry : ScheduleEntry) (info : AircraftInfo) (chosen : AircraftState)
    (w : Time × Time × ℚ)
    (h : select_candidate env cands entry info = some (chosen, w)) :
    evaluate_candidate env chosen entry info = some w ∧
    (∀ st ∈ cands, ∀ w2, evaluate_candidate env st entry info = some w2 →
      chosen.accumulated_ferry + w.2.2 ≤ st.accumulated_ferry + w2.2.2) ∧
    (∃ l1 l2, cands = l1 ++ chosen :: l2 ∧
      ∀ st ∈ l1, ∀ w2, evaluate_candidate env st entry info = some w2 →
        chosen.accumulated_ferry + w.2.2 < st.accumulated_ferry + w2.2.2) := by
  unfold select_candidate at h
  rcases select_fold_spec env entry info cands none (chosen, w) h with
    ⟨h1, _⟩ | ⟨l1, l2, heq, hres, _, hl1, hl2⟩
  · cases h1
  · refine ⟨hres, ?_, l1, l2, heq, hl1⟩
    intro st hst w2 hw2
    rw [heq] at hst
    rcases List.mem_append.mp hst with hst | hst
    · exact le_of_lt (hl1 st hst w2 hw2)
    · rcases List.mem_cons.mp hst with rfl | hst
      · rw [hres] at hw2
        obtain rfl := Option.some.inj hw2
        exact le_refl _
      · exact hl2 st hst w2 hw2

/-- Witness for the amended C6 at the concrete tie between the two
Mustangs: the fold returns the first-inserted aircraft. -/
theorem c6_first_minimum_selected_witness :
    (select_candidate demoEnv [c6_stateB, c6_stateA] c6_refreshed mustangInfo
        = some (c6_stateB, (dateTimeMin, dateTimeMin, 0))) ∧
    (evaluate_candidate demoEnv c6_stateB c6_refreshed mustangInfo
        = some (dateTimeMin, dateTimeMin, 0) ∧
      (∀ st ∈ [c6_stateB, c6_stateA], ∀ w2,
        evaluate_candidate demoEnv st c6_refreshed mustangInfo = some w2 →
        c6_stateB.accumulated_ferry + (dateTimeMin, dateTimeMin, (0:ℚ)).2.2
          ≤ st.accumulated_ferry + w2.2.2) ∧
      (∃ l1 l2, [c6_stateB, c6_stateA] = l1 ++ c6_stateB :: l2 ∧
        ∀ st ∈ l1, ∀ w2, evaluate_candidate demoEnv st c6_refreshed mustangInfo = some w2 →
          c6_stateB.accumulated_ferry + (dateTimeMin, dateTimeMin, (0:ℚ)).2.2
            < st.accumulated_ferry + w2.2.2)) :=
  ⟨by decide!,
    c6_first_minimum_selected demoEnv [c6_stateB, c6_stateA] c6_refreshed mustangInfo
      c6_stateB (dateTimeMin, dateTimeMin, 0) (by decide!)⟩

/-! ## C9: departure-time processing order with creation-order ties -/

/-- The stable insertion is a permutation of pushing the element on top. -/
theorem insertStable_perm {α : Type} (le : α → α → Bool) (x : α) :
    ∀ m : List α, (insertStable le x m).Perm (x :: m) := by
  intro m
  induction m with
  | nil => exact List.Perm.refl _
  | cons y ys ih =>
    unfold insertStable
    split
    · exact List.Perm.refl _
    · exact List.Perm.trans (List.Perm.cons y ih) (List.Perm.swap x y ys)

/-- The stable sort is a permutation of its input. -/
theorem sortStable_perm {α : Type} (le : α → α → Bool) :
    ∀ l : List α, (sortStable le l).Perm l := by
  intro l
  induction l with
  | nil => exact List.Perm.refl _
  | cons a t ih =>
    exact List.Perm.trans (insertStable_perm le a (sortStable le t)) (List.Perm.cons a ih)

/-- Inserting an element whose id is below every id in a time-lex-sorted
list keeps the list time-lex-sorted. -/
theorem insertStable_time_pairwise (a : ScheduleEntry) :
    ∀ m : List ScheduleEntry, m.Pairwise entry_lex →
      (∀ y ∈ m, a.entry_id < y.entry_id) →
      (insertStable (fun x y => decide (x.departure_time ≤ y.departure_time)) a m).Pairwise
        entry_lex := by
  intro m
  induction m with
  | nil =>
    intro _ _
    simp [insertStable]
  | cons y ys ih =>
    intro hp hid
    obtain ⟨hrel, htail⟩ := List.pairwise_cons.mp hp
    unfold insertStable
    split
    · rename_i hle
      have hay : a.departure_time ≤ y.departure_time := of_decide_eq_true hle
      refine List.Pairwise.cons ?_ hp
      intro z hz
      rcases List.mem_cons.mp hz with rfl | hz
      · rcases lt_or_eq_of_le hay with h | h
        · exact Or.inl h
        · exact Or.inr ⟨h, hid _ (List.mem_cons_self _ _)⟩
      · have hyz := hrel z hz
        have haz : a.departure_time ≤ z.departure_time := by
          rcases hyz with h | h
          · exact le_trans hay (le_of_lt h)
          · exact le_trans hay (le_of_eq h.1)
        rcases lt_or_eq_of_le haz with h | h
        · exact Or.inl h
        · exact Or.inr ⟨h, hid z (List.mem_cons_of_mem _ hz)⟩
    · rename_i hle
      have hya : y.departure_time < a.departure_time := by
        have h2 : ¬ a.departure_time ≤ y.departure_time := by
          simpa using hle
        exact lt_of_not_le h2
      refine List.Pairwise.cons ?_
        (ih htail (fun z hz => hid z (List.mem_cons_of_mem _ hz)))
      intro z hz
      have hz' : z = a ∨ z ∈ ys :=
        List.mem_cons.mp ((insertStable_perm _ a ys).mem_iff.mp hz)
      rcases hz' with rfl | hz'
      · exact Or.inl hya
      · exact hrel z hz'

/-- Stably sorting by departure time a list whose ids strictly increase
yields a list sorted by `(departure_time, entry_id)` lexicographically. -/
theorem sortStable_time_pairwise :
    ∀ l : List ScheduleEntry, l.Pairwise (fun a b => a.entry_id < b.entry_id) →
      (sortStable (fun x y => decide (x.departure_time ≤ y.departure_time)) l).Pairwise
        entry_lex := by
  intro l
  induction l with
  | nil => intro _; exact List.Pairwise.nil
  | cons a t ih =>
    intro hp
    obtain ⟨hrel, htail⟩ := List.pairwise_cons.mp hp
    have step : sortStable (fun x y => decide (x.departure_time ≤ y.departure_time)) (a :: t)
        = insertStable (fun x y => decide (x.departure_time ≤ y.departure_time)) a
            (sortStable (fun x y => decide (x.departure_time ≤ y.departure_time)) t) := rfl
    rw [step]
    refine insertStable_time_pairwise a _ (ih htail) ?_
    intro y hy
    exact hrel y ((sortStable_perm _ t).mem_iff.mp hy)

/-- Each mission-loop iteration adds at most one commitment, and it is for
the processed entry. -/
theorem commit_candidate_assignments (env : Env) (info : AircraftInfo) (ps : PassState)
    (entry : ScheduleEntry) (cands : List AircraftState) :
    (commit_candidate env info ps entry cands).assignments = ps.assignments ∨
    ∃ r, (commit_candidate env info ps entry cands).assignments
        = ps.assignments ++ [(entry, r)] := by
  unfold commit_candidate
  cases hsel : select_candidate env cands entry info with
  | none => left; rfl
  | some p =>
    obtain ⟨chosen, window⟩ := p
    right
    exact ⟨chosen.registration, rfl⟩

/-- The per-mission loop body adds at most one commitment, for the processed
entry. -/
theorem process_entry_assignments (env : Env) (info : AircraftInfo) (ps : PassState)
    (entry : ScheduleEntry) :
    (process_entry env info ps entry).assignments = ps.assignments ∨
    ∃ r, (process_entry env info ps entry).assignments = ps.assignments ++ [(entry, r)] := by
  cases hreq : entry.requested_registration with
  | none =>
    simp only [process_entry, hreq]
    unfold general_candidates
    split
    · left; rfl
    · exact commit_candidate_assignments env info ps entry _
  | some req =>
    simp only [process_entry, hreq]
    split
    · unfold general_candidates
      split
      · left; rfl
      · exact commit_candidate_assignments env info ps entry _
    · cases hfind : ps.states.find? (fun st => st.registration == req) with
      | none => simp only [hfind]; left; trivial
      | some requested =>
        simp only [hfind]
        split
        · left; rfl
        · exact commit_candidate_assignments env info ps entry _

/-- The mission fold only appends commitments, and the committed entries
form a subsequence of the processed list. -/
theorem process_fold_assignments (env : Env) (info : AircraftInfo) :
    ∀ (l : List ScheduleEntry) (ps : PassState),
      ∃ committed : List (ScheduleEntry × String),
        (l.foldl (process_entry env info) ps).assignments = ps.assignments ++ committed ∧
        List.Sublist (committed.map Prod.fst) l := by
  intro l
  induction l with
  | nil => intro ps; exact ⟨[], by simp, List.nil_sublist _⟩
  | cons a t ih =>
    intro ps
    rw [List.foldl_cons]
    obtain ⟨committed, hc, hsub⟩ := ih (process_entry env info ps a)
    rcases process_entry_assignments env info ps a with h | ⟨r, h⟩
    · refine ⟨committed, ?_, hsub.cons a⟩
      rw [hc, h]
    · refine ⟨(a, r) :: committed, ?_, ?_⟩
      · rw [hc, h]; simp
      · simpa using hsub.cons₂ a

/-- C9: within each aircraft type, missions are processed — and hence
committed — in ascending departure-time order, ties broken by ascending
creation (id) order: the processing list is lexicographically sorted by
`(departure_time, entry_id)`, it is a permutation of that type's missions,
and the commitments of any fold over it form a subsequence of it. -/
theorem c9_processing_order (entries : List ScheduleEntry) (tk : String)
    (hids : entries.Pairwise (fun a b => a.entry_id < b.entry_id)) :
    (mission_processing_order entries tk).Pairwise entry_lex ∧
    (mission_processing_order entries tk).Perm
      (entries.filter (fun e => e.aircraft_type == tk)) ∧
    (∀ (env : Env) (info : AircraftInfo) (ps : PassState),
      ∃ committed : List (ScheduleEntry × String),
        ((mission_processing_order entries tk).foldl (process_entry env info) ps).assignments
          = ps.assignments ++ committed ∧
        List.Sublist (committed.map Prod.fst) (mission_processing_order entries tk)) := by
  refine ⟨?_, ?_, ?_⟩
  · exact sortStable_time_pairwise _ (hids.filter _)
  · exact sortStable_perm _ _
  · intro env info ps
    exact process_fold_assignments env info (mission_processing_order entries tk) ps

/-- Witness for C9 at the concrete two-mission registry. -/
theorem c9_processing_order_witness :
    (mission_processing_order [demoMission1, demoMission2] "citation_mustang").Pairwise
        entry_lex ∧
    (mission_processing_order [demoMission1, demoMission2] "citation_mustang").Perm
      ([demoMission1, demoMission2].filter (fun e => e.aircraft_type == "citation_mustang")) ∧
    (∀ (env : Env) (info : AircraftInfo) (ps : PassState),
      ∃ committed : List (ScheduleEntry × String),
        ((mission_processing_order [demoMission1, demoMission2] "citation_mustang").foldl
            (process_entry env info) ps).assignments
          = ps.assignments ++ committed ∧
        List.Sublist (committed.map Prod.fst)
          (mission_processing_order [demoMission1, demoMission2] "citation_mustang")) :=
  c9_processing_order [demoMission1, demoMission2] "citation_mustang" (by decide)

/-! ## C5: the synthesized reposition segment -/

/-- The chosen candidate of a successful selection is feasible with exactly
the returned window. -/
theorem select_candidate_eval (env : Env) (cands : List AircraftState)
    (entry : ScheduleEntry) (info : AircraftInfo) (chosen : AircraftState)
    (w : Time × Time × ℚ)
    (h : select_candidate env cands entry info = some (chosen, w)) :
    evaluate_candidate env chosen entry info = some w := by
  unfold select_candidate at h
  rcases select_fold_spec env entry info cands none (chosen, w) h with
    ⟨h1, _⟩ | ⟨_, _, _, hres, _, _, _⟩
  · cases h1
  · exact hres

/-- C5: when a mission is committed to an aircraft whose known location `X`
differs from the mission's departure airport and the buffer-adjusted
feasibility `available_from + duration ≤ departure_time − ground_buffer`
holds, the commitment produces exactly one AutoSegment from `X` to the
departure airport, scheduled as late as possible: its departure time is
`latest_finish − duration` and its arrival time is its departure time plus
the duration; the mission is committed to that aircraft. -/
theorem c5_reposition_segment (env : Env) (info : AircraftInfo) (ps : PassState)
    (entry : ScheduleEntry) (cands : List AircraftState) (chosen : AircraftState)
    (w : Time × Time × ℚ) (X : String)
    (hsel : select_candidate env cands entry info = some (chosen, w))
    (hloc : chosen.location = some X)
    (hne : X ≠ entry.departure_airport)
    (hdist : 0 ≤ env.dist X entry.departure_airport)
    (hspeed : 0 < info.speed)
    (hfeas : chosen.available_from +
        (compute_flight_stats (env.dist X entry.departure_airport) info.speed).total_hours
      ≤ entry.departure_time - GROUND_BUFFER) :
    ∃ seg, (commit_candidate env info ps entry cands).autos = ps.autos ++ [seg] ∧
      seg.departure_airport = X ∧
      seg.arrival_airport = entry.departure_airport ∧
      seg.departure_time = (entry.departure_time - GROUND_BUFFER) -
        (compute_flight_stats (env.dist X entry.departure_airport) info.speed).total_hours ∧
      seg.arrival_time = some (seg.departure_time +
        (compute_flight_stats (env.dist X entry.departure_airport) info.speed).total_hours) ∧
      seg.assigned_registration = some chosen.registration ∧
      seg.auto_generated = true ∧
      (commit_candidate env info ps entry cands).assignments
        = ps.assignments ++ [(entry, chosen.registration)] := by
  have heval := select_candidate_eval env cands entry info chosen w hsel
  have hpos : 0 < (compute_flight_stats (env.dist X entry.departure_airport) info.speed).total_hours :=
    total_hours_pos _ _ hdist hspeed
  have hle : chosen.available_from ≤ (entry.departure_time - GROUND_BUFFER) -
      (compute_flight_stats (env.dist X entry.departure_airport) info.speed).total_hours := by
    linarith
  have hb : (X == entry.departure_airport) = false := by
    simpa using hne
  simp only [evaluate_candidate, hloc, hb, Bool.false_eq_true, if_false] at heval
  rw [if_neg (not_lt.mpr hfeas)] at heval
  have hmax : max chosen.available_from ((entry.departure_time - GROUND_BUFFER) -
      (compute_flight_stats (env.dist X entry.departure_airport) info.speed).total_hours)
      = (entry.departure_time - GROUND_BUFFER) -
        (compute_flight_stats (env.dist X entry.departure_airport) info.speed).total_hours :=
    max_eq_right hle
  rw [hmax] at heval
  obtain rfl := Option.some.inj heval
  refine ⟨mkAutoEntry env ps.autoId chosen entry
      ((entry.departure_time - GROUND_BUFFER) -
        (compute_flight_stats (env.dist X entry.departure_airport) info.speed).total_hours)
      (((entry.departure_time - GROUND_BUFFER) -
        (compute_flight_stats (env.dist X entry.departure_airport) info.speed).total_hours) +
        (compute_flight_stats (env.dist X entry.departure_airport) info.speed).total_hours)
      (compute_flight_stats (env.dist X entry.departure_airport) info.speed).total_hours,
    ?_, ?_, ?_, rfl, rfl, rfl, rfl, ?_⟩
  · unfold commit_candidate
    rw [hsel]
    simp only [if_pos hpos]
  · unfold mkAutoEntry
    rw [hloc]
    rfl
  · rfl
  · unfold commit_candidate
    rw [hsel]

/-- Witness for C5 at the concrete aircraft parked at AAA and mission
departing from BBB. -/
theorem c5_reposition_segment_witness :
    ∃ seg, (commit_candidate demoEnv mustangInfo c5_ps c5_entry [c5_aircraft]).autos
        = c5_ps.autos ++ [seg] ∧
      seg.departure_airport = "AAA" ∧
      seg.arrival_airport = c5_entry.departure_airport ∧
      seg.departure_time = (c5_entry.departure_time - GROUND_BUFFER) -
        (compute_flight_stats (demoEnv.dist "AAA" c5_entry.departure_airport)
          mustangInfo.speed).total_hours ∧
      seg.arrival_time = some (seg.departure_time +
        (compute_flight_stats (demoEnv.dist "AAA" c5_entry.departure_airport)
          mustangInfo.speed).total_hours) ∧
      seg.assigned_registration = some c5_aircraft.registration ∧
      seg.auto_generated = true ∧
      (commit_candidate demoEnv mustangInfo c5_ps c5_entry [c5_aircraft]).assignments
        = c5_ps.assignments ++ [(c5_entry, c5_aircraft.registration)] :=
  c5_reposition_segment demoEnv mustangInfo c5_ps c5_entry [c5_aircraft] c5_aircraft
    (8373/85, 99, 42/85) "AAA" (by decide!) (by decide!) (by decide) (by decide!)
    (by decide!) (by decide!)

/-! ## The commitment invariant machinery for C2 and C3 -/

/-- Appending a commitment for another registration leaves a registration's
commitment list unchanged. -/
theorem commitsOf_append_ne (r : String) (asg : List (ScheduleEntry × String))
    (e : ScheduleEntry) (r2 : String) (h : r2 ≠ r) :
    commitsOf r (asg ++ [(e, r2)]) = commitsOf r asg := by
  unfold commitsOf
  rw [List.filterMap_append]
  simp [h]

/-- Appending a commitment for a registration appends the mission to its
commitment list. -/
theorem commitsOf_append_eq (r : String) (asg : List (ScheduleEntry × String))
    (e : ScheduleEntry) :
    commitsOf r (asg ++ [(e, r)]) = commitsOf r asg ++ [e] := by
  unfold commitsOf
  rw [List.filterMap_append]
  simp

/-- Committed missions of a registration come from commitment pairs. -/
theorem mem_of_mem_commitsOf (r : String) (asg : List (ScheduleEntry × String))
    (e : ScheduleEntry) (h : e ∈ commitsOf r asg) : (e, r) ∈ asg := by
  unfold commitsOf at h
  obtain ⟨p, hp, hpe⟩ := List.mem_filterMap.mp h
  by_cases h2 : p.2 = r
  · rw [if_pos h2] at hpe
    obtain rfl := Option.some.inj hpe
    have hpr : (p.1, r) = p := by
      obtain ⟨p1, p2⟩ := p
      simp only at h2 ⊢
      rw [h2]
    rwa [hpr]
  · rw [if_neg h2] at hpe
    cases hpe

/-- Commitment pairs put their missions into the commitment list. -/
theorem mem_commitsOf_of_mem (r : String) (asg : List (ScheduleEntry × String))
    (p : ScheduleEntry × String) (hp : p ∈ asg) (hr : p.2 = r) :
    p.1 ∈ commitsOf r asg := by
  unfold commitsOf
  exact List.mem_filterMap.mpr ⟨p, hp, by rw [if_pos hr]⟩

/-- A registration with no commitment pairs has no commitments. -/
theorem commitsOf_eq_nil (r : String) (asg : List (ScheduleEntry × String))
    (h : ∀ p ∈ asg, p.2 ≠ r) : commitsOf r asg = [] := by
  unfold commitsOf
  rw [List.filterMap_eq_nil_iff]
  intro p hp
  rw [if_neg (h p hp)]

/-- The commitment list embeds into the committed missions. -/
theorem commitsOf_sublist (r : String) (asg : List (ScheduleEntry × String)) :
    List.Sublist (commitsOf r asg) (asg.map Prod.fst) := by
  induction asg with
  | nil => exact List.Sublist.refl _
  | cons p t ih =>
    unfold commitsOf
    rw [List.filterMap_cons]
    split
    · exact (ih).cons p.1
    · rename_i e heq
      by_cases h2 : p.2 = r
      · rw [if_pos h2] at heq
        obtain rfl := Option.some.inj heq
        exact ih.cons₂ p.1
      · rw [if_neg h2] at heq
        cases heq

/-- The chain relation is monotone in the available segments. -/
theorem chain_rel_mono (autos autos2 : List ScheduleEntry) (r : String)
    (hsub : ∀ a ∈ autos, a ∈ autos2) (e1 e2 : ScheduleEntry)
    (h : chain_rel autos r e1 e2) : chain_rel autos2 r e1 e2 := by
  refine ⟨h.1, ?_⟩
  intro hne
  obtain ⟨a, ha, hprops⟩ := h.2 hne
  exact ⟨a, hsub a ha, hprops⟩

/-- Fresh pool states stem from the fleet's aircraft of the type. -/
theorem build_aircraft_states_src (fleet : List FleetAircraft) (tk : String) :
    ∀ st ∈ build_aircraft_states fleet tk,
      ∃ a ∈ fleet, a.registration = st.registration ∧ a.type_key = tk ∧
        a.max_pax = st.max_pax ∧ st.location = none ∧ st.available_from = dateTimeMin := by
  intro st hst
  unfold build_aircraft_states at hst
  obtain ⟨a, ha, rfl⟩ := List.mem_map.mp hst
  have hmem := List.mem_of_mem_filter ha
  have htk : a.type_key = tk := by
    have := List.of_mem_filter ha
    simpa using this
  exact ⟨a, hmem, rfl, htk, rfl, rfl, rfl⟩

/-- Fresh pool registrations are distinct when fleet registrations are. -/
theorem build_aircraft_states_nodup (fleet : List FleetAircraft) (tk : String)
    (h : (fleet.map (fun a => a.registration)).Nodup) :
    ((build_aircraft_states fleet tk).map (fun st => st.registration)).Nodup := by
  unfold build_aircraft_states
  rw [List.map_map]
  have : (fleet.filter (fun a => a.type_key == tk)).map
      ((fun st : AircraftState => st.registration) ∘
        (fun a : FleetAircraft =>
          ({ registration := a.registration, type_key := a.type_key,
             max_pax := a.max_pax } : AircraftState)))
      = (fleet.filter (fun a => a.type_key == tk)).map (fun a => a.registration) := by
    apply List.map_congr_left
    intro a _
    rfl
  rw [this]
  exact List.Nodup.sublist
    (List.Sublist.map (fun a : FleetAircraft => a.registration)
      (List.filter_sublist fleet)) h

/-- A successful selection picks a member of the candidate list. -/
theorem select_candidate_mem (env : Env) (cands : List AircraftState)
    (entry : ScheduleEntry) (info : AircraftInfo) (chosen : AircraftState)
    (w : Time × Time × ℚ)
    (h : select_candidate env cands entry info = some (chosen, w)) :
    chosen ∈ cands := by
  unfold select_candidate at h
  rcases select_fold_spec env entry info cands none (chosen, w) h with
    ⟨h1, _⟩ | ⟨l1, l2, heq, _, _, _, _⟩
  · cases h1
  · rw [heq]
    exact List.mem_append_right _ (List.mem_cons_self _ _)

/-- Facts every feasible window satisfies: the candidate is free before the
buffered departure, the ferry cost is nonnegative, and a candidate parked
away from the departure airport has a strictly positive ferry cost. -/
theorem evaluate_some_facts (env : Env) (st : AircraftState) (entry : ScheduleEntry)
    (info : AircraftInfo) (w : Time × Time × ℚ)
    (hdist : ∀ a b, 0 ≤ env.dist a b) (hspeed : 0 < info.speed)
    (h : evaluate_candidate env st entry info = some w) :
    st.available_from ≤ entry.departure_time - GROUND_BUFFER ∧ 0 ≤ w.2.2 ∧
    (∀ X, st.location = some X → X ≠ entry.departure_airport → 0 < w.2.2) := by
  cases hloc : st.location with
  | none =>
    simp only [evaluate_candidate, hloc] at h
    split at h
    · cases h
    · rename_i hgt
      obtain rfl := Option.some.inj h
      refine ⟨le_of_not_lt hgt, le_refl _, ?_⟩
      intro X hX
      exact absurd hX (by simp)
  | some loc =>
    simp only [evaluate_candidate, hloc] at h
    by_cases heq : (loc == entry.departure_airport) = true
    · rw [if_pos heq] at h
      split at h
      · cases h
      · rename_i hgt
        obtain rfl := Option.some.inj h
        refine ⟨le_of_not_lt hgt, le_refl _, ?_⟩
        intro X hX hne
        obtain rfl := Option.some.inj hX
        exact absurd (by simpa using heq) hne
    · rw [if_neg heq] at h
      split at h
      · cases h
      · rename_i hgt
        obtain rfl := Option.some.inj h
        have hD : 0 < (compute_flight_stats (env.dist loc entry.departure_airport)
            info.speed).total_hours := total_hours_pos _ _ (hdist _ _) hspeed
        have hfeas := le_of_not_lt hgt
        exact ⟨by linarith, le_of_lt hD, fun X hX hne => hD⟩

/-- Tracking transfers along equal commitment lists. -/
theorem last_ok_congr (st : AircraftState) (asg1 asg2 : List (ScheduleEntry × String))
    (h : commitsOf st.registration asg1 = commitsOf st.registration asg2)
    (hok : last_ok st asg1) : last_ok st asg2 := by
  unfold last_ok at hok ⊢
  rw [← h]
  exact hok

/-- The committed aircraft state after one commitment. -/
def committed_state (chosen : AircraftState) (entry : ScheduleEntry) (rh : ℚ) :
    AircraftState :=
  { chosen with
    location := some entry.arrival_airport,
    available_from := entry.arrival_time.getD 0 + GROUND_BUFFER,
    accumulated_ferry := chosen.accumulated_ferry + rh }

/-- Normal form of a successful commitment. -/
theorem commit_candidate_some (env : Env) (info : AircraftInfo) (ps : PassState)
    (entry : ScheduleEntry) (cands : List AircraftState) (chosen : AircraftState)
    (w : Time × Time × ℚ)
    (hsel : select_candidate env cands entry info = some (chosen, w)) :
    commit_candidate env info ps entry cands =
      { states := ps.states.map (fun st =>
          if st.registration == chosen.registration
          then committed_state chosen entry w.2.2 else st),
        errors := ps.errors,
        autos := if w.2.2 > 0
          then ps.autos ++ [mkAutoEntry env ps.autoId chosen entry w.1 w.2.1 w.2.2]
          else ps.autos,
        autoId := if w.2.2 > 0 then ps.autoId + 1 else ps.autoId,
        assignments := ps.assignments ++ [(entry, chosen.registration)] } := by
  unfold commit_candidate committed_state
  rw [hsel]
  by_cases hw : w.2.2 > 0
  · simp only [if_pos hw]
  · simp only [if_neg hw]

/-- Preservation of the pass invariants by one successful or failed
commitment attempt. -/
theorem commit_candidate_inv (env : Env) (fleet : List FleetAircraft)
    (cleared : List ScheduleEntry) (tk : String) (info : AircraftInfo)
    (ps : PassState) (entry : ScheduleEntry) (cands : List AircraftState)
    (hdist : ∀ a b, 0 ≤ env.dist a b) (hspeed : 0 < info.speed)
    (hmem : entry ∈ cleared) (htk : entry.aircraft_type = tk)
    (hcore : core_inv fleet cleared ps) (hstates : states_inv fleet tk ps)
    (hsub : ∀ st ∈ cands, st ∈ ps.states)
    (hpax : ∀ st ∈ cands, mission_required_pax entry.mission_type ≤ st.max_pax) :
    core_inv fleet cleared (commit_candidate env info ps entry cands) ∧
    states_inv fleet tk (commit_candidate env info ps entry cands) := by
  cases hsel : select_candidate env cands entry info with
  | none =>
    unfold commit_candidate
    rw [hsel]
    exact ⟨hcore, hstates⟩
  | some p =>
    obtain ⟨chosen, w⟩ := p
    have heval := select_candidate_eval env cands entry info chosen w hsel
    have hch_cands := select_candidate_mem env cands entry info chosen w hsel
    have hchmem : chosen ∈ ps.states := hsub chosen hch_cands
    obtain ⟨hsrc, hnodup, hlast⟩ := hstates
    obtain ⟨hwf, hchain⟩ := hcore
    obtain ⟨a, ha_mem, ha_reg, ha_tk, ha_pax⟩ := hsrc chosen hchmem
    have hfacts := evaluate_some_facts env chosen entry info w hdist hspeed heval
    have hlastch := hlast chosen hchmem
    rw [commit_candidate_some env info ps entry cands chosen w hsel]
    have hmono : ∀ x ∈ ps.autos,
        x ∈ (if w.2.2 > 0
          then ps.autos ++ [mkAutoEntry env ps.autoId chosen entry w.1 w.2.1 w.2.2]
          else ps.autos) := by
      intro x hx
      split
      · exact List.mem_append_left _ hx
      · exact hx
    refine ⟨⟨?_, ?_⟩, ?_, ?_, ?_⟩
    · -- commitment well-formedness
      intro p hp
      rcases List.mem_append.mp hp with hp | hp
      · exact hwf p hp
      · rw [List.mem_singleton.mp hp]
        refine ⟨hmem, a, ha_mem, ha_reg, ?_, ?_⟩
        · rw [ha_tk, htk]
        · rw [ha_pax]
          exact hpax chosen hch_cands
    · -- chains
      intro r2
      by_cases hr2 : r2 = chosen.registration
      · subst hr2
        show List.Chain' _ (commitsOf chosen.registration
          (ps.assignments ++ [(entry, chosen.registration)]))
        rw [commitsOf_append_eq]
        refine List.Chain'.append
          ((hchain chosen.registration).imp (fun e1 e2 => chain_rel_mono _ _ _ hmono e1 e2))
          (List.chain'_singleton _) ?_
        intro x hx y hy
        have hy2 : entry = y := by simpa using hy
        subst hy2
        have hx2 : (commitsOf chosen.registration ps.assignments).getLast? = some x := hx
        unfold last_ok at hlastch
        rw [hx2] at hlastch
        constructor
        · rw [← hlastch.2]
          exact hfacts.1
        · intro hne
          have hD := hfacts.2.2 x.arrival_airport hlastch.1 hne
          rw [if_pos hD]
          refine ⟨mkAutoEntry env ps.autoId chosen entry w.1 w.2.1 w.2.2,
            List.mem_append_right _ (List.mem_cons_self _ _), rfl, rfl, ?_, rfl⟩
          show chosen.location.getD "" = x.arrival_airport
          rw [hlastch.1]
          rfl
      · show List.Chain' _ (commitsOf r2 (ps.assignments ++ [(entry, chosen.registration)]))
        rw [commitsOf_append_ne r2 ps.assignments entry chosen.registration
          (fun h => hr2 h.symm)]
        exact (hchain r2).imp (fun e1 e2 => chain_rel_mono _ _ _ hmono e1 e2)
    · -- states stem from the fleet
      intro st hst
      obtain ⟨st0, hst0, rfl⟩ := List.mem_map.mp hst
      by_cases hreg : (st0.registration == chosen.registration) = true
      · rw [if_pos hreg]
        exact ⟨a, ha_mem, ha_reg, ha_tk, ha_pax⟩
      · rw [if_neg hreg]
        exact hsrc st0 hst0
    · -- state registrations stay distinct
      have hmapeq : (ps.states.map (fun st =>
          if st.registration == chosen.registration
          then committed_state chosen entry w.2.2 else st)).map (fun st => st.registration)
          = ps.states.map (fun st => st.registration) := by
        rw [List.map_map]
        apply List.map_congr_left
        intro st0 _
        by_cases hreg : (st0.registration == chosen.registration) = true
        · simp only [Function.comp, if_pos hreg]
          exact (beq_iff_eq.mp hreg).symm
        · simp only [Function.comp, if_neg hreg]
      rw [hmapeq]
      exact hnodup
    · -- tracking
      intro st hst
      obtain ⟨st0, hst0, rfl⟩ := List.mem_map.mp hst
      by_cases hreg : (st0.registration == chosen.registration) = true
      · rw [if_pos hreg]
        have hst0eq : st0 = chosen :=
          List.inj_on_of_nodup_map hnodup hst0 hchmem (beq_iff_eq.mp hreg)
        unfold last_ok
        show (match (commitsOf (committed_state chosen entry w.2.2).registration
            (ps.assignments ++ [(entry, chosen.registration)])).getLast? with
          | none => (committed_state chosen entry w.2.2).location = none ∧
              (committed_state chosen entry w.2.2).available_from = dateTimeMin
          | some e => (committed_state chosen entry w.2.2).location = some e.arrival_airport ∧
              (committed_state chosen entry w.2.2).available_from
                = e.arrival_time.getD 0 + GROUND_BUFFER)
        have hregeq : (committed_state chosen entry w.2.2).registration
            = chosen.registration := rfl
        rw [hregeq, commitsOf_append_eq, List.getLast?_concat]
        exact ⟨rfl, rfl⟩
      · rw [if_neg hreg]
        have hne : chosen.registration ≠ st0.registration := by
          intro h
          exact hreg (beq_iff_eq.mpr h.symm)
        refine last_ok_congr st0 ps.assignments _ ?_ (hlast st0 hst0)
        rw [commitsOf_append_ne st0.registration ps.assignments entry chosen.registration hne]

/-- Preservation of the pass invariants by one mission-loop iteration. -/
theorem process_entry_inv (env : Env) (fleet : List FleetAircraft)
    (cleared : List ScheduleEntry) (tk : String) (info : AircraftInfo)
    (ps : PassState) (entry : ScheduleEntry)
    (hdist : ∀ a b, 0 ≤ env.dist a b) (hspeed : 0 < info.speed)
    (hmem : entry ∈ cleared) (htk : entry.aircraft_type = tk)
    (hcore : core_inv fleet cleared ps) (hstates : states_inv fleet tk ps) :
    core_inv fleet cleared (process_entry env info ps entry) ∧
    states_inv fleet tk (process_entry env info ps entry) := by
  cases hreq : entry.requested_registration with
  | none =>
    simp only [process_entry, hreq]
    unfold general_candidates
    split
    · exact ⟨hcore, hstates⟩
    · refine commit_candidate_inv env fleet cleared tk info ps entry _ hdist hspeed hmem htk
        hcore hstates ?_ ?_
      · intro st hst
        exact List.mem_of_mem_filter hst
      · intro st hst
        have := List.of_mem_filter hst
        simpa using this
  | some req =>
    simp only [process_entry, hreq]
    split
    · unfold general_candidates
      split
      · exact ⟨hcore, hstates⟩
      · refine commit_candidate_inv env fleet cleared tk info ps entry _ hdist hspeed hmem htk
          hcore hstates ?_ ?_
        · intro st hst
          exact List.mem_of_mem_filter hst
        · intro st hst
          have := List.of_mem_filter hst
          simpa using this
    · cases hfind : ps.states.find? (fun st => st.registration == req) with
      | none =>
        simp only [hfind]
        exact ⟨hcore, hstates⟩
      | some requested =>
        simp only [hfind]
        split
        · exact ⟨hcore, hstates⟩
        · rename_i hlt
          refine commit_candidate_inv env fleet cleared tk info ps entry [requested] hdist
            hspeed hmem htk hcore hstates ?_ ?_
          · intro st hst
            rw [List.mem_singleton.mp hst]
            exact List.mem_of_find?_eq_some hfind
          · intro st hst
            rw [List.mem_singleton.mp hst]
            exact le_of_not_lt hlt

/-- Preservation of the pass invariants by the whole mission fold of one
type. -/
theorem process_fold_inv (env : Env) (fleet : List FleetAircraft)
    (cleared : List ScheduleEntry) (tk : String) (info : AircraftInfo)
    (hdist : ∀ a b, 0 ≤ env.dist a b) (hspeed : 0 < info.speed) :
    ∀ (l : List ScheduleEntry) (ps : PassState),
      (∀ e ∈ l, e ∈ cleared ∧ e.aircraft_type = tk) →
      core_inv fleet cleared ps → states_inv fleet tk ps →
      core_inv fleet cleared (l.foldl (process_entry env info) ps) ∧
      states_inv fleet tk (l.foldl (process_entry env info) ps) := by
  intro l
  induction l with
  | nil => intro ps _ hc hs; exact ⟨hc, hs⟩
  | cons a t ih =>
    intro ps hl hc hs
    rw [List.foldl_cons]
    obtain ⟨hc2, hs2⟩ := process_entry_inv env fleet cleared tk info ps a hdist hspeed
      (hl a (List.mem_cons_self a t)).1 (hl a (List.mem_cons_self a t)).2 hc hs
    exact ih _ (fun e he => hl e (List.mem_cons_of_mem a he)) hc2 hs2

/-- Members of the processing order are that type's missions. -/
theorem mission_processing_order_mem (entries : List ScheduleEntry) (tk : String) :
    ∀ e ∈ mission_processing_order entries tk, e ∈ entries ∧ e.aircraft_type = tk := by
  intro e he
  have hf : e ∈ entries.filter (fun e => e.aircraft_type == tk) :=
    (sortStable_perm _ _).mem_iff.mp he
  refine ⟨List.mem_of_mem_filter hf, ?_⟩
  have := List.of_mem_filter hf
  simpa using this

/-- Entry ids along the processing order are distinct when the registry's
are. -/
theorem mission_processing_order_ids (entries : List ScheduleEntry) (tk : String)
    (h : (entries.map (fun e => e.entry_id)).Nodup) :
    ((mission_processing_order entries tk).map (fun e => e.entry_id)).Nodup := by
  have hperm := (sortStable_perm
    (fun a b : ScheduleEntry => decide (a.departure_time ≤ b.departure_time))
    (entries.filter (fun e => e.aircraft_type == tk))).map (fun e => e.entry_id)
  unfold mission_processing_order
  rw [List.Perm.nodup_iff hperm]
  exact List.Nodup.sublist
    (List.Sublist.map (fun e : ScheduleEntry => e.entry_id) (List.filter_sublist entries)) h

/-- Preservation of the cross-type invariants by one per-type round:
commitments stay well-formed and chained, their ids stay distinct, and all
commitments made so far concern already-processed types. -/
theorem run_type_inv (env : Env) (fleet : List FleetAircraft)
    (cleared : List ScheduleEntry)
    (hdist : ∀ a b, 0 ≤ env.dist a b)
    (hfleet : (fleet.map (fun a => a.registration)).Nodup)
    (hclids : (cleared.map (fun e => e.entry_id)).Nodup)
    (tk : String) (rest : List String) (ps : PassState)
    (htk_rest : tk ∉ rest)
    (hcore : core_inv fleet cleared ps)
    (hids : (ps.assignments.map (fun p => p.1.entry_id)).Nodup)
    (hseen : ∀ p ∈ ps.assignments, p.1.aircraft_type ∉ (tk :: rest)) :
    core_inv fleet cleared (run_type env fleet cleared ps tk) ∧
    ((run_type env fleet cleared ps tk).assignments.map (fun p => p.1.entry_id)).Nodup ∧
    (∀ p ∈ (run_type env fleet cleared ps tk).assignments, p.1.aircraft_type ∉ rest) := by
  cases hinfo : get_aircraft_info (some tk) with
  | none =>
    simp only [run_type, hinfo]
    exact ⟨hcore, hids, fun p hp hin => hseen p hp (List.mem_cons_of_mem _ hin)⟩
  | some info =>
    simp only [run_type, hinfo]
    split
    · exact ⟨hcore, hids, fun p hp hin => hseen p hp (List.mem_cons_of_mem _ hin)⟩
    · have hspeed := aircraft_speed_pos (some tk) info hinfo
      have hstates0 : states_inv fleet tk { ps with states := build_aircraft_states fleet tk } := by
        refine ⟨?_, ?_, ?_⟩
        · intro st hst
          obtain ⟨a, ha, h1, h2, h3, _, _⟩ := build_aircraft_states_src fleet tk st hst
          exact ⟨a, ha, h1, h2, h3⟩
        · exact build_aircraft_states_nodup fleet tk hfleet
        · intro st hst
          obtain ⟨a, ha, h1, h2, h3, hloc, hav⟩ := build_aircraft_states_src fleet tk st hst
          have hnil : commitsOf st.registration ps.assignments = [] := by
            apply commitsOf_eq_nil
            intro p hp hpr
            obtain ⟨_, a2, ha2, ha2r, ha2t, _⟩ := hcore.1 p hp
            have haa : a2 = a :=
              List.inj_on_of_nodup_map hfleet ha2 ha (by rw [ha2r, hpr, ← h1])
            have htype : p.1.aircraft_type = tk := by rw [← ha2t, haa, h2]
            exact hseen p hp (htype ▸ List.mem_cons_self tk rest)
          unfold last_ok
          rw [hnil]
          exact ⟨hloc, hav⟩
      obtain ⟨hcf, _⟩ := process_fold_inv env fleet cleared tk info hdist hspeed
        (mission_processing_order cleared tk) { ps with states := build_aircraft_states fleet tk }
        (mission_processing_order_mem cleared tk) hcore hstates0
      obtain ⟨new, hnew_eq, hnew_sub⟩ := process_fold_assignments env info
        (mission_processing_order cleared tk) { ps with states := build_aircraft_states fleet tk }
      have hnew_mem : ∀ p ∈ new, p.1 ∈ cleared ∧ p.1.aircraft_type = tk := by
        intro p hp
        have : p.1 ∈ mission_processing_order cleared tk :=
          hnew_sub.mem (List.mem_map_of_mem Prod.fst hp)
        exact mission_processing_order_mem cleared tk p.1 this
      refine ⟨hcf, ?_, ?_⟩
      · rw [hnew_eq, List.map_append]
        refine List.Nodup.append hids ?_ ?_
        · have hsubids : List.Sublist (new.map (fun p => p.1.entry_id))
              ((mission_processing_order cleared tk).map (fun e => e.entry_id)) := by
            have := List.Sublist.map (fun e : ScheduleEntry => e.entry_id) hnew_sub
            simpa [List.map_map] using this
          exact List.Nodup.sublist hsubids (mission_processing_order_ids cleared tk hclids)
        · intro i hi1 hi2
          obtain ⟨p, hp, hpid⟩ := List.mem_map.mp hi1
          obtain ⟨q, hq, hqid⟩ := List.mem_map.mp hi2
          have hpcl : p.1 ∈ cleared := (hcore.1 p hp).1
          have hqcl : q.1 ∈ cleared := (hnew_mem q hq).1
          have hpq : p.1 = q.1 :=
            List.inj_on_of_nodup_map hclids hpcl hqcl (by rw [hpid, hqid])
          have htype : p.1.aircraft_type = tk := by rw [hpq, (hnew_mem q hq).2]
          exact hseen p hp (htype ▸ List.mem_cons_self tk rest)
      · rw [hnew_eq]
        intro p hp
        rcases List.mem_append.mp hp with hp | hp
        · exact fun hin => hseen p hp (List.mem_cons_of_mem _ hin)
        · rw [(hnew_mem p hp).2]
          exact htk_rest

/-- The per-type iteration order lists each aircraft type once. -/
theorem type_keys_nodup_go :
    ∀ (l : List ScheduleEntry) (acc : List String), acc.Nodup →
      (l.foldl (fun acc e =>
        if acc.contains e.aircraft_type then acc else acc ++ [e.aircraft_type]) acc).Nodup := by
  intro l
  induction l with
  | nil => intro acc h; exact h
  | cons a t ih =>
    intro acc h
    rw [List.foldl_cons]
    apply ih
    split
    · exact h
    · rename_i hnc
      have hnotin : a.aircraft_type ∉ acc := by
        intro hin
        exact hnc (List.contains_iff_exists_mem_beq.mpr ⟨a.aircraft_type, hin, by simp⟩)
      exact List.Nodup.append h (List.nodup_singleton _)
        (fun x hx hx2 => hnotin ((List.mem_singleton.mp hx2) ▸ hx))

/-- The per-type iteration order has no duplicate types. -/
theorem type_keys_nodup (entries : List ScheduleEntry) :
    (type_keys_in_order entries).Nodup := by
  unfold type_keys_in_order
  exact type_keys_nodup_go entries [] List.nodup_nil

/-- Preservation of the cross-type invariants by the whole per-type fold. -/
theorem optimise_fold_inv (env : Env) (fleet : List FleetAircraft)
    (cleared : List ScheduleEntry)
    (hdist : ∀ a b, 0 ≤ env.dist a b)
    (hfleet : (fleet.map (fun a => a.registration)).Nodup)
    (hclids : (cleared.map (fun e => e.entry_id)).Nodup) :
    ∀ (tks : List String) (ps : PassState), tks.Nodup →
      core_inv fleet cleared ps →
      (ps.assignments.map (fun p => p.1.entry_id)).Nodup →
      (∀ p ∈ ps.assignments, p.1.aircraft_type ∉ tks) →
      core_inv fleet cleared (tks.foldl (run_type env fleet cleared) ps) ∧
      ((tks.foldl (run_type env fleet cleared) ps).assignments.map
          (fun p => p.1.entry_id)).Nodup := by
  intro tks
  induction tks with
  | nil => intro ps _ hc hi _; exact ⟨hc, hi⟩
  | cons tk rest ih =>
    intro ps hnd hc hi hs
    rw [List.foldl_cons]
    obtain ⟨hnd1, hnd2⟩ := List.nodup_cons.mp hnd
    obtain ⟨h1, h2, h3⟩ := run_type_inv env fleet cleared hdist hfleet hclids tk rest ps
      hnd1 hc hi hs
    exact ih _ hnd2 h1 h2 h3

/-- The optimisation pass keeps its commitments well-formed, chained, and
with distinct mission ids. -/
theorem optimise_pass_inv (env : Env) (fleet : List FleetAircraft)
    (cleared : List ScheduleEntry) (autoId : ℕ)
    (hdist : ∀ a b, 0 ≤ env.dist a b)
    (hfleet : (fleet.map (fun a => a.registration)).Nodup)
    (hclids : (cleared.map (fun e => e.entry_id)).Nodup) :
    core_inv fleet cleared (optimise_pass env fleet cleared autoId) ∧
    ((optimise_pass env fleet cleared autoId).assignments.map
        (fun p => p.1.entry_id)).Nodup := by
  unfold optimise_pass
  refine optimise_fold_inv env fleet cleared hdist hfleet hclids
    (type_keys_in_order cleared) _ (type_keys_nodup cleared) ⟨?_, ?_⟩ ?_ ?_
  · intro p hp
    exact absurd hp (List.not_mem_nil p)
  · intro r
    show List.Chain' _ (commitsOf r [])
    simp [commitsOf]
  · simp
  · intro p hp
    exact absurd hp (List.not_mem_nil p)

/-- The refresh fold preserves the sequence of entry ids. -/
theorem refresh_foldl_ids (env : Env) :
    ∀ (l : List ScheduleEntry) (acc : List ScheduleEntry × List String),
      (l.foldl (refresh_step env) acc).1.map (fun e => e.entry_id)
        = acc.1.map (fun e => e.entry_id) ++ l.map (fun e => e.entry_id) := by
  intro l
  induction l with
  | nil => intro acc; simp
  | cons a t ih =>
    intro acc
    rw [List.foldl_cons, ih]
    unfold refresh_step
    cases hr : refresh_entry_metrics env (clear_assignment a) with
    | ok e2 =>
      have hid : e2.entry_id = a.entry_id := by
        rw [refresh_ok_fields env _ _ hr]
        rfl
      simp [hid]
    | error msg =>
      simp [clear_assignment]

/-- When the refresh fold reports no error, every produced entry is
refreshed: its arrival equals departure plus positive flight hours. -/
theorem refresh_foldl_refreshed (env : Env) (hdist : ∀ a b, 0 ≤ env.dist a b) :
    ∀ (l : List ScheduleEntry) (acc : List ScheduleEntry × List String),
      (∀ e ∈ acc.1, Refreshed e) →
      (l.foldl (refresh_step env) acc).2 = [] →
      ∀ e ∈ (l.foldl (refresh_step env) acc).1, Refreshed e := by
  intro l
  induction l with
  | nil => intro acc hacc _; exact hacc
  | cons a t ih =>
    intro acc hacc hnil
    rw [List.foldl_cons] at hnil ⊢
    cases hr : refresh_entry_metrics env (clear_assignment a) with
    | error msg =>
      exfalso
      obtain ⟨es, rs, hshape⟩ := refresh_foldl_shape env t (refresh_step env acc a)
      rw [hshape] at hnil
      have hstep : (refresh_step env acc a).2 = acc.2 ++ [msg] := by
        unfold refresh_step
        rw [hr]
      rw [hstep] at hnil
      simp at hnil
    | ok e2 =>
      apply ih
      · intro e he
        have hstep : (refresh_step env acc a).1 = acc.1 ++ [e2] := by
          unfold refresh_step
          rw [hr]
        rw [hstep] at he
        rcases List.mem_append.mp he with he | he
        · exact hacc e he
        · rw [List.mem_singleton.mp he]
          obtain ⟨info, hinfo, hfh, harr⟩ := refresh_ok_metrics env _ _ hr
          have hdep : e2.departure_time = (clear_assignment a).departure_time := by
            rw [refresh_ok_fields env _ _ hr]
          constructor
          · rw [harr, hdep]
          · rw [hfh]
            exact total_hours_pos _ _ (hdist _ _) (aircraft_speed_pos _ info hinfo)
      · exact hnil

/-- Clearing an entry preserves refreshedness. -/
theorem Refreshed_clear (e : ScheduleEntry) (h : Refreshed e) :
    Refreshed (clear_assignment e) := h

/-- Every entry produced by the clearing map has no assignment. -/
theorem cleared_assigned_none (entries : List ScheduleEntry) :
    ∀ e ∈ entries.map clear_assignment, e.assigned_registration = none := by
  intro e he
  obtain ⟨e0, _, rfl⟩ := List.mem_map.mp he
  rfl

/-- Chained (refreshed) commitments are pairwise time-separated, not just
consecutively: later commitments depart after any earlier one's arrival plus
both buffers. -/
theorem chain_pairwise_time (autos : List ScheduleEntry) (r : String) :
    ∀ l : List ScheduleEntry, List.Chain' (chain_rel autos r) l →
      (∀ e ∈ l, Refreshed e) →
      l.Pairwise (fun e1 e2 => e1.arrival_time.getD 0 + GROUND_BUFFER
        ≤ e2.departure_time - GROUND_BUFFER) := by
  intro l
  induction l with
  | nil => intro _ _; exact List.Pairwise.nil
  | cons a t ih =>
    intro hch hwf
    cases t with
    | nil => simp
    | cons b t2 =>
      obtain ⟨hab, hch2⟩ := List.chain'_cons.mp hch
      have hpt := ih hch2 (fun e he => hwf e (List.mem_cons_of_mem a he))
      refine List.Pairwise.cons ?_ hpt
      intro z hz
      rcases List.mem_cons.mp hz with rfl | hz
      · exact hab.1
      · have hbz := List.rel_of_pairwise_cons hpt hz
        have hwfb := hwf b (List.mem_cons_of_mem a (List.mem_cons_self b t2))
        have hGB : (0:ℚ) < GROUND_BUFFER := by norm_num [GROUND_BUFFER]
        have harr : b.arrival_time.getD 0 = b.departure_time + b.flight_time_hours := by
          rw [hwfb.1]
          rfl
        have hfh := hwfb.2
        have h1 := hab.1
        linarith

/-- A buffered separation between refreshed missions orders their
departures strictly. -/
theorem time_rel_dep_lt (e1 e2 : ScheduleEntry)
    (h : e1.arrival_time.getD 0 + GROUND_BUFFER ≤ e2.departure_time - GROUND_BUFFER)
    (hw : Refreshed e1) : e1.departure_time < e2.departure_time := by
  have harr : e1.arrival_time.getD 0 = e1.departure_time + e1.flight_time_hours := by
    rw [hw.1]
    rfl
  have hGB : (0:ℚ) < GROUND_BUFFER := by norm_num [GROUND_BUFFER]
  have := hw.2
  linarith

/-- Reading an assignment off the final entry list identifies a commitment
pair, provided ids are unique. -/
theorem apply_assignments_forward (asg : List (ScheduleEntry × String))
    (cleared : List ScheduleEntry)
    (hclids : (cleared.map (fun e => e.entry_id)).Nodup)
    (hwf : ∀ p ∈ asg, p.1 ∈ cleared)
    (hnone : ∀ e ∈ cleared, e.assigned_registration = none) :
    ∀ e r, e ∈ cleared.map (apply_assignments asg) → e.assigned_registration = some r →
      ∃ ce, ce ∈ cleared ∧ (ce, r) ∈ asg ∧
        e = { ce with assigned_registration := some r } := by
  intro e r he hr
  obtain ⟨ce, hce, rfl⟩ := List.mem_map.mp he
  unfold apply_assignments at hr ⊢
  cases hfind : asg.find? (fun p => p.1.entry_id == ce.entry_id) with
  | none =>
    rw [hfind] at hr
    rw [hnone ce hce] at hr
    cases hr
  | some p =>
    rw [hfind] at hr
    have hp2 : p.2 = r := by
      have : some p.2 = some r := hr
      exact Option.some.inj this
    have hp_mem := List.mem_of_find?_eq_some hfind
    have hpid : p.1.entry_id = ce.entry_id := by
      have := List.find?_some hfind
      simpa using this
    have hp1 : p.1 = ce := List.inj_on_of_nodup_map hclids (hwf p hp_mem) hce hpid
    refine ⟨ce, hce, ?_, ?_⟩
    · have hpe : p = (ce, r) := by
        obtain ⟨q1, q2⟩ := p
        simp only at hp1 hp2
        rw [hp1, hp2]
      rw [← hpe]
      exact hp_mem
    · show ({ ce with assigned_registration := some p.2 } : ScheduleEntry)
          = { ce with assigned_registration := some r }
      rw [hp2]

/-- Every commitment pair shows up as an assignment on the final entry
list, provided commitment ids are unique. -/
theorem apply_assignments_backward (asg : List (ScheduleEntry × String))
    (cleared : List ScheduleEntry)
    (hids : (asg.map (fun p => p.1.entry_id)).Nodup)
    (hwf : ∀ p ∈ asg, p.1 ∈ cleared) :
    ∀ p ∈ asg, ({ p.1 with assigned_registration := some p.2 } : ScheduleEntry)
      ∈ cleared.map (apply_assignments asg) := by
  intro p hp
  have happly : apply_assignments asg p.1 =
      { p.1 with assigned_registration := some p.2 } := by
    unfold apply_assignments
    cases hfind : asg.find? (fun q => q.1.entry_id == p.1.entry_id) with
    | none =>
      exfalso
      have := List.find?_eq_none.mp hfind p hp
      simp at this
    | some q =>
      have hq_mem := List.mem_of_find?_eq_some hfind
      have hqid : q.1.entry_id = p.1.entry_id := by
        have := List.find?_some hfind
        simpa using this
      have hqp : q = p := List.inj_on_of_nodup_map hids hq_mem hp hqid
      rw [hqp]
  rw [← happly]
  exact List.mem_map_of_mem _ (hwf p hp)

/-- Facts available after a pass whose refresh phase reported no error. -/
theorem recalc_ok_facts (env : Env) (s : SystemState)
    (hdist : ∀ a b, 0 ≤ env.dist a b)
    (hids : (s.entries.map (fun e => e.entry_id)).Nodup)
    (hfleet : (s.fleet.map (fun a => a.registration)).Nodup)
    (hok : (refresh_all env s.entries).2 = []) :
    (recalculate_schedule env s).entries
        = (((refresh_all env s.entries).1).map clear_assignment).map
            (apply_assignments (optimise_pass env s.fleet
              (((refresh_all env s.entries).1).map clear_assignment) s.autoId).assignments) ∧
    (recalculate_schedule env s).autoSegments
        = (optimise_pass env s.fleet
            (((refresh_all env s.entries).1).map clear_assignment) s.autoId).autos ∧
    ((((refresh_all env s.entries).1).map clear_assignment).map (fun e => e.entry_id)).Nodup ∧
    (∀ e ∈ ((refresh_all env s.entries).1).map clear_assignment, Refreshed e) ∧
    core_inv s.fleet (((refresh_all env s.entries).1).map clear_assignment)
      (optimise_pass env s.fleet
        (((refresh_all env s.entries).1).map clear_assignment) s.autoId) ∧
    ((optimise_pass env s.fleet (((refresh_all env s.entries).1).map clear_assignment)
        s.autoId).assignments.map (fun p => p.1.entry_id)).Nodup := by
  have hclid : ((((refresh_all env s.entries).1).map clear_assignment).map
      (fun e => e.entry_id)).Nodup := by
    rw [List.map_map]
    have hcomp : (((refresh_all env s.entries).1).map
        ((fun e : ScheduleEntry => e.entry_id) ∘ clear_assignment))
        = ((refresh_all env s.entries).1).map (fun e => e.entry_id) := by
      apply List.map_congr_left
      intro e _
      rfl
    rw [hcomp]
    unfold refresh_all
    rw [refresh_foldl_ids]
    simpa using hids
  have hrefr : ∀ e ∈ ((refresh_all env s.entries).1).map clear_assignment, Refreshed e := by
    intro e he
    obtain ⟨e0, he0, rfl⟩ := List.mem_map.mp he
    refine Refreshed_clear e0 ?_
    exact refresh_foldl_refreshed env hdist s.entries ([], [])
      (fun e2 he2 => absurd he2 (List.not_mem_nil e2)) hok e0 he0
  obtain ⟨hcore, hasgids⟩ := optimise_pass_inv env s.fleet
    (((refresh_all env s.entries).1).map clear_assignment) s.autoId hdist hfleet hclid
  refine ⟨?_, ?_, hclid, hrefr, hcore, hasgids⟩
  · rw [recalculate_ok_branch env s hok]
    rfl
  · rw [recalculate_ok_branch env s hok]
    rfl

/-- C2: after a completed pass, for any aircraft registration the committed
missions respect the ground buffer — a later mission departs no earlier than
any earlier one's arrival plus the one-hour buffer — and whenever the
immediately preceding committed mission's arrival airport (the aircraft's
known prior location) differs from the next mission's departure airport, a
ferry AutoSegment linking the two exists for that aircraft. -/
theorem c2_ground_buffer_and_ferry_invariant (env : Env) (s : SystemState)
    (hdist : ∀ a b, 0 ≤ env.dist a b)
    (hids : (s.entries.map (fun e => e.entry_id)).Nodup)
    (hfleet : (s.fleet.map (fun a => a.registration)).Nodup) :
    (∀ e1 e2 r t1, e1 ∈ (recalculate_schedule env s).entries →
      e2 ∈ (recalculate_schedule env s).entries →
      e1.assigned_registration = some r → e2.assigned_registration = some r →
      e1.departure_time < e2.departure_time →
      e1.arrival_time = some t1 →
      t1 + GROUND_BUFFER ≤ e2.departure_time) ∧
    (∀ e1 e2 r, e1 ∈ (recalculate_schedule env s).entries →
      e2 ∈ (recalculate_schedule env s).entries →
      e1.assigned_registration = some r → e2.assigned_registration = some r →
      e1.departure_time < e2.departure_time →
      (∀ e3 ∈ (recalculate_schedule env s).entries, e3.assigned_registration = some r →
        ¬(e1.departure_time < e3.departure_time ∧ e3.departure_time < e2.departure_time)) →
      e1.arrival_airport ≠ e2.departure_airport →
      ∃ a ∈ (recalculate_schedule env s).autoSegments,
        a.assigned_registration = some r ∧ a.auto_generated = true ∧
        a.departure_airport = e1.arrival_airport ∧
        a.arrival_airport = e2.departure_airport) := by
  by_cases hok : (refresh_all env s.entries).2 = []
  case neg =>
    have hbr := recalculate_error_branch env s hok
    have hnone : ∀ e ∈ (recalculate_schedule env s).entries,
        e.assigned_registration = none := by
      rw [hbr]
      exact refresh_foldl_assigned env s.entries ([], []) (by simp)
    constructor
    · intro e1 e2 r t1 he1 _ ha1 _ _ _
      rw [hnone e1 he1] at ha1
      cases ha1
    · intro e1 e2 r he1 _ ha1 _ _ _ _
      rw [hnone e1 he1] at ha1
      cases ha1
  case pos =>
    obtain ⟨hE, hA, hclids, hrefr, hcore, hasgids⟩ :=
      recalc_ok_facts env s hdist hids hfleet hok
    set cleared := ((refresh_all env s.entries).1).map clear_assignment with hcleared
    set P := optimise_pass env s.fleet cleared s.autoId with hP
    have hwfs : ∀ p ∈ P.assignments, p.1 ∈ cleared := fun p hp => (hcore.1 p hp).1
    have hnones : ∀ e ∈ cleared, e.assigned_registration = none := by
      rw [hcleared]
      exact cleared_assigned_none _
    have hwfl : ∀ r, ∀ x ∈ commitsOf r P.assignments, Refreshed x := by
      intro r x hx
      have hx2 : x ∈ P.assignments.map Prod.fst := (commitsOf_sublist r P.assignments).subset hx
      obtain ⟨p, hp, rfl⟩ := List.mem_map.mp hx2
      exact hrefr p.1 (hwfs p hp)
    have hGB : (0:ℚ) < GROUND_BUFFER := by norm_num [GROUND_BUFFER]
    constructor
    · intro e1 e2 r t1 he1 he2 ha1 ha2 hdep harr
      rw [hE] at he1 he2
      obtain ⟨ce1, hce1, hp1, rfl⟩ :=
        apply_assignments_forward P.assignments cleared hclids hwfs hnones e1 r he1 ha1
      obtain ⟨ce2, hce2, hp2, rfl⟩ :=
        apply_assignments_forward P.assignments cleared hclids hwfs hnones e2 r he2 ha2
      have hm1 : ce1 ∈ commitsOf r P.assignments :=
        mem_commitsOf_of_mem r P.assignments (ce1, r) hp1 rfl
      have hm2 : ce2 ∈ commitsOf r P.assignments :=
        mem_commitsOf_of_mem r P.assignments (ce2, r) hp2 rfl
      have hpw := chain_pairwise_time P.autos r (commitsOf r P.assignments)
        (hcore.2 r) (hwfl r)
      obtain ⟨i, hilen, hgi⟩ := List.getElem_of_mem hm1
      obtain ⟨j, hjlen, hgj⟩ := List.getElem_of_mem hm2
      have hdep2 : ce1.departure_time < ce2.departure_time := hdep
      have hij : i < j := by
        rcases lt_trichotomy i j with h | h | h
        · exact h
        · exfalso
          subst h
          rw [hgi] at hgj
          rw [hgj] at hdep2
          exact lt_irrefl _ hdep2
        · exfalso
          have hrel := List.pairwise_iff_getElem.mp hpw j i hjlen hilen h
          rw [hgi, hgj] at hrel
          have := time_rel_dep_lt ce2 ce1 hrel (hwfl r ce2 hm2)
          linarith
      have hrel := List.pairwise_iff_getElem.mp hpw i j hilen hjlen hij
      rw [hgi, hgj] at hrel
      have harr1 : ce1.arrival_time = some t1 := harr
      have ht1 : ce1.arrival_time.getD 0 = t1 := by rw [harr1]; rfl
      rw [ht1] at hrel
      show t1 + GROUND_BUFFER ≤ ce2.departure_time
      linarith
    · intro e1 e2 r he1 he2 ha1 ha2 hdep hbetween hne
      rw [hE] at he1 he2
      obtain ⟨ce1, hce1, hp1, rfl⟩ :=
        apply_assignments_forward P.assignments cleared hclids hwfs hnones e1 r he1 ha1
      obtain ⟨ce2, hce2, hp2, rfl⟩ :=
        apply_assignments_forward P.assignments cleared hclids hwfs hnones e2 r he2 ha2
      have hm1 : ce1 ∈ commitsOf r P.assignments :=
        mem_commitsOf_of_mem r P.assignments (ce1, r) hp1 rfl
      have hm2 : ce2 ∈ commitsOf r P.assignments :=
        mem_commitsOf_of_mem r P.assignments (ce2, r) hp2 rfl
      have hpw := chain_pairwise_time P.autos r (commitsOf r P.assignments)
        (hcore.2 r) (hwfl r)
      obtain ⟨i, hilen, hgi⟩ := List.getElem_of_mem hm1
      obtain ⟨j, hjlen, hgj⟩ := List.getElem_of_mem hm2
      have hdep2 : ce1.departure_time < ce2.departure_time := hdep
      have hij : i < j := by
        rcases lt_trichotomy i j with h | h | h
        · exact h
        · exfalso
          subst h
          rw [hgi] at hgj
          rw [hgj] at hdep2
          exact lt_irrefl _ hdep2
        · exfalso
          have hrel := List.pairwise_iff_getElem.mp hpw j i hjlen hilen h
          rw [hgi, hgj] at hrel
          have := time_rel_dep_lt ce2 ce1 hrel (hwfl r ce2 hm2)
          linarith
      obtain ⟨j2, rfl⟩ : ∃ j2, j = j2 + 1 := ⟨j - 1, by omega⟩
      have hj2len : j2 < (commitsOf r P.assignments).length := by omega
      have hchn := List.chain'_iff_get.mp (hcore.2 r) j2 (by omega)
      simp only [List.get_eq_getElem] at hchn
      by_cases hieq : i = j2
      · have hcp : (commitsOf r P.assignments)[j2] = ce1 := by
          rw [← hgi]
          subst hieq
          rfl
        rw [hcp, hgj] at hchn
        have hne2 : ce1.arrival_airport ≠ ce2.departure_airport := hne
        obtain ⟨a, ha_mem, ha1, ha2, ha3, ha4⟩ := hchn.2 hne2
        rw [hA]
        exact ⟨a, ha_mem, ha1, ha2, ha3, ha4⟩
      · exfalso
        have hij2 : i < j2 := by omega
        have hrel3 := List.pairwise_iff_getElem.mp hpw i j2 hilen hj2len hij2
        rw [hgi] at hrel3
        have hd1 : ce1.departure_time
            < ((commitsOf r P.assignments)[j2]).departure_time :=
          time_rel_dep_lt _ _ hrel3 (hwfl r ce1 hm1)
        rw [hgj] at hchn
        have hd2 : ((commitsOf r P.assignments)[j2]).departure_time
            < ce2.departure_time :=
          time_rel_dep_lt _ _ hchn.1
            (hwfl r _ (List.getElem_mem hj2len))
        have hcp_pair : ((commitsOf r P.assignments)[j2], r) ∈ P.assignments :=
          mem_of_mem_commitsOf r P.assignments _ (List.getElem_mem hj2len)
        have he3 := apply_assignments_backward P.assignments cleared hasgids hwfs
          _ hcp_pair
        have hb := hbetween
          ({ (commitsOf r P.assignments)[j2] with
              assigned_registration := some r } : ScheduleEntry)
          (by rw [hE]; exact he3) rfl
        exact hb ⟨hd1, hd2⟩

/-- Witness for C2 at the concrete two-mission registry. -/
theorem c2_ground_buffer_and_ferry_invariant_witness :
    (∀ e1 e2 r t1, e1 ∈ (recalculate_schedule demoEnv demoState).entries →
      e2 ∈ (recalculate_schedule demoEnv demoState).entries →
      e1.assigned_registration = some r → e2.assigned_registration = some r →
      e1.departure_time < e2.departure_time →
      e1.arrival_time = some t1 →
      t1 + GROUND_BUFFER ≤ e2.departure_time) ∧
    (∀ e1 e2 r, e1 ∈ (recalculate_schedule demoEnv demoState).entries →
      e2 ∈ (recalculate_schedule demoEnv demoState).entries →
      e1.assigned_registration = some r → e2.assigned_registration = some r →
      e1.departure_time < e2.departure_time →
      (∀ e3 ∈ (recalculate_schedule demoEnv demoState).entries,
        e3.assigned_registration = some r →
        ¬(e1.departure_time < e3.departure_time ∧ e3.departure_time < e2.departure_time)) →
      e1.arrival_airport ≠ e2.departure_airport →
      ∃ a ∈ (recalculate_schedule demoEnv demoState).autoSegments,
        a.assigned_registration = some r ∧ a.auto_generated = true ∧
        a.departure_airport = e1.arrival_airport ∧
        a.arrival_airport = e2.departure_airport) :=
  c2_ground_buffer_and_ferry_invariant demoEnv demoState
    (fun a b => by norm_num [demoEnv]) (by decide) (by decide)

/-- C3: after a completed pass, every mission with an assigned registration
is assigned to a fleet aircraft whose type equals the mission's required
aircraft type and whose seat capacity is at least the mission's required
passenger count. -/
theorem c3_assignment_type_and_capacity (env : Env) (s : SystemState)
    (hdist : ∀ a b, 0 ≤ env.dist a b)
    (hids : (s.entries.map (fun e => e.entry_id)).Nodup)
    (hfleet : (s.fleet.map (fun a => a.registration)).Nodup) :
    ∀ e ∈ (recalculate_schedule env s).entries, ∀ r, e.assigned_registration = some r →
      ∃ a ∈ s.fleet, a.registration = r ∧ a.type_key = e.aircraft_type ∧
        mission_required_pax e.mission_type ≤ a.max_pax := by
  by_cases hok : (refresh_all env s.entries).2 = []
  case neg =>
    have hbr := recalculate_error_branch env s hok
    have hnone : ∀ e ∈ (recalculate_schedule env s).entries,
        e.assigned_registration = none := by
      rw [hbr]
      exact refresh_foldl_assigned env s.entries ([], []) (by simp)
    intro e he r ha
    rw [hnone e he] at ha
    cases ha
  case pos =>
    obtain ⟨hE, _, hclids, _, hcore, hasgids⟩ :=
      recalc_ok_facts env s hdist hids hfleet hok
    set cleared := ((refresh_all env s.entries).1).map clear_assignment with hcleared
    set P := optimise_pass env s.fleet cleared s.autoId with hP
    have hwfs : ∀ p ∈ P.assignments, p.1 ∈ cleared := fun p hp => (hcore.1 p hp).1
    have hnones : ∀ e ∈ cleared, e.assigned_registration = none := by
      rw [hcleared]
      exact cleared_assigned_none _
    intro e he r ha
    rw [hE] at he
    obtain ⟨ce, hce, hp, rfl⟩ :=
      apply_assignments_forward P.assignments cleared hclids hwfs hnones e r he ha
    obtain ⟨hmem, a, ham, har, hat, hap⟩ := hcore.1 (ce, r) hp
    exact ⟨a, ham, har, hat, hap⟩

/-- Witness for C3 at the concrete two-mission registry: the first mission
comes out of the pass assigned to `N1`, a fleet Mustang with enough seats. -/
theorem c3_assignment_type_and_capacity_witness :
    ∃ a ∈ demoState.fleet, a.registration = "N1" ∧
      a.type_key = "citation_mustang" ∧ mission_required_pax "Ferry" ≤ a.max_pax :=
  c3_assignment_type_and_capacity demoEnv demoState
    (fun a b => by norm_num [demoEnv]) (by decide) (by decide)
    { demoMission1 with
        flight_time_hours := 42/85, flight_time_text := "0h 29m",
        arrival_time := some (8542/85), assigned_registration := some "N1" }
    (by decide!) "N1" (by decide!)

/-! ## Idempotence of the refresh phase (towards C7) -/

/-- Clearing an assignment is idempotent. -/
theorem clear_clear (e : ScheduleEntry) :
    clear_assignment (clear_assignment e) = clear_assignment e := rfl

/-- Clearing cancels a replayed assignment write. -/
theorem clear_apply (asg : List (ScheduleEntry × String)) (e : ScheduleEntry) :
    clear_assignment (apply_assignments asg e) = clear_assignment e := by
  unfold apply_assignments
  split <;> rfl

/-- An entry with no assignment is fixed by clearing. -/
theorem clear_eq_self (e : ScheduleEntry) (h : e.assigned_registration = none) :
    clear_assignment e = e := by
  unfold clear_assignment
  rw [← h]

/-- A successful refresh passes the airport checks. -/
theorem refresh_ok_known (env : Env) (e e2 : ScheduleEntry)
    (h : refresh_entry_metrics env e = .ok e2) :
    env.knownAirport e.departure_airport = true ∧
      env.knownAirport e.arrival_airport = true := by
  unfold refresh_entry_metrics at h
  split at h
  · simp at h
  · rename_i hcond
    have hk := not_not.mp hcond
    exact ⟨hk.1, hk.2⟩

/-- Closed form of a successful refresh. -/
theorem refresh_entry_eq (env : Env) (e : ScheduleEntry)
    (hk : env.knownAirport e.departure_airport ∧ env.knownAirport e.arrival_airport)
    (info : AircraftInfo)
    (hinfo : get_aircraft_info (some e.aircraft_type) = some info) :
    refresh_entry_metrics env e = .ok { e with
      flight_time_hours :=
        (compute_flight_stats (env.dist e.departure_airport e.arrival_airport)
          info.speed).total_hours,
      flight_time_text :=
        toString (compute_flight_stats (env.dist e.departure_airport e.arrival_airport)
            info.speed).hours ++ "h " ++
          toString (compute_flight_stats (env.dist e.departure_airport e.arrival_airport)
            info.speed).minutes ++ "m",
      arrival_time := some (e.departure_time +
        (compute_flight_stats (env.dist e.departure_airport e.arrival_airport)
          info.speed).total_hours) } := by
  unfold refresh_entry_metrics
  rw [if_neg (not_not_intro hk), hinfo]

/-- Refreshing the output of a successful refresh reproduces it exactly. -/
theorem refresh_entry_idem (env : Env) (e0 e : ScheduleEntry)
    (h : refresh_entry_metrics env e0 = .ok e) :
    refresh_entry_metrics env e = .ok e := by
  obtain ⟨hk1, hk2⟩ := refresh_ok_known env e0 e h
  obtain ⟨info, hinfo, -, -⟩ := refresh_ok_metrics env e0 e h
  rw [refresh_entry_eq env e0 ⟨hk1, hk2⟩ info hinfo] at h
  have he := Except.ok.inj h
  subst he
  exact refresh_entry_eq env _ ⟨hk1, hk2⟩ info hinfo

/-- The refresh fold's outputs do not depend on the accumulator. -/
theorem refresh_foldl_acc (env : Env) :
    ∀ (l : List ScheduleEntry) (acc : List ScheduleEntry × List String),
      l.foldl (refresh_step env) acc =
        (acc.1 ++ (refresh_all env l).1, acc.2 ++ (refresh_all env l).2) := by
  intro l
  induction l with
  | nil => intro acc; simp [refresh_all]
  | cons a t ih =>
    intro acc
    rw [List.foldl_cons]
    rw [ih (refresh_step env acc a)]
    have hr : refresh_all env (a :: t) =
        t.foldl (refresh_step env) (refresh_step env ([], []) a) := by
      unfold refresh_all
      rw [List.foldl_cons]
    rw [hr, ih (refresh_step env ([], []) a)]
    unfold refresh_step
    cases refresh_entry_metrics env (clear_assignment a) <;> simp

/-- `refresh_all` distributes over append. -/
theorem refresh_all_append (env : Env) (l1 l2 : List ScheduleEntry) :
    refresh_all env (l1 ++ l2) =
      ((refresh_all env l1).1 ++ (refresh_all env l2).1,
        (refresh_all env l1).2 ++ (refresh_all env l2).2) := by
  have h1 : refresh_all env (l1 ++ l2) =
      (l1 ++ l2).foldl (refresh_step env) ([], []) := rfl
  rw [h1, List.foldl_append, refresh_foldl_acc env l2]
  have h2 : l1.foldl (refresh_step env) ([], []) = refresh_all env l1 := rfl
  rw [h2]

/-- Replaying the refresh over its own output changes nothing: the same
entries come out and the same diagnostics are collected again. -/
theorem refresh_all_replay (env : Env) :
    ∀ l : List ScheduleEntry,
      refresh_all env (refresh_all env l).1 = refresh_all env l := by
  intro l
  induction l with
  | nil => rfl
  | cons a t ih =>
    have hcons : refresh_all env (a :: t) =
        ((refresh_step env ([], []) a).1 ++ (refresh_all env t).1,
          (refresh_step env ([], []) a).2 ++ (refresh_all env t).2) := by
      have h1 : refresh_all env (a :: t) =
          t.foldl (refresh_step env) (refresh_step env ([], []) a) := by
        unfold refresh_all
        rw [List.foldl_cons]
      rw [h1, refresh_foldl_acc env t]
    have hstep : refresh_all env (refresh_step env ([], []) a).1 =
        ((refresh_step env ([], []) a).1, (refresh_step env ([], []) a).2) := by
      cases hr : refresh_entry_metrics env (clear_assignment a) with
      | ok e2 =>
        have hstep1 : refresh_step env ([], []) a = ([e2], []) := by
          unfold refresh_step
          rw [hr]
          rfl
        rw [hstep1]
        have hassigned : e2.assigned_registration = none := by
          have hf := refresh_ok_fields env _ _ hr
          rw [hf]
          rfl
        have hclear : clear_assignment e2 = e2 := clear_eq_self e2 hassigned
        have hidem : refresh_entry_metrics env e2 = .ok e2 :=
          refresh_entry_idem env _ e2 hr
        show refresh_step env ([], []) e2 = ([e2], [])
        unfold refresh_step
        rw [hclear, hidem]
        rfl
      | error msg =>
        have hstep1 : refresh_step env ([], []) a = ([clear_assignment a], [msg]) := by
          unfold refresh_step
          rw [hr]
          rfl
        rw [hstep1]
        show refresh_step env ([], []) (clear_assignment a) =
          ([clear_assignment a], [msg])
        unfold refresh_step
        rw [clear_clear, hr]
        rfl
    calc refresh_all env (refresh_all env (a :: t)).1
        = refresh_all env ((refresh_step env ([], []) a).1 ++ (refresh_all env t).1) := by
          rw [hcons]
      _ = ((refresh_all env (refresh_step env ([], []) a).1).1 ++
            (refresh_all env (refresh_all env t).1).1,
          (refresh_all env (refresh_step env ([], []) a).1).2 ++
            (refresh_all env (refresh_all env t).1).2) :=
          refresh_all_append env _ _
      _ = ((refresh_step env ([], []) a).1 ++ (refresh_all env t).1,
          (refresh_step env ([], []) a).2 ++ (refresh_all env t).2) := by
          rw [ih, hstep]
      _ = refresh_all env (a :: t) := hcons.symm

/-- The refresh of an entry only depends on its cleared form. -/
theorem refresh_step_congr (env : Env) (acc : List ScheduleEntry × List String)
    (x y : ScheduleEntry) (h : clear_assignment x = clear_assignment y) :
    refresh_step env acc x = refresh_step env acc y := by
  unfold refresh_step
  rw [h]

/-- Mapping a function that preserves the cleared form does not change the
refresh phase. -/
theorem refresh_all_map_congr (env : Env) (f : ScheduleEntry → ScheduleEntry)
    (hf : ∀ e, clear_assignment (f e) = clear_assignment e) :
    ∀ l : List ScheduleEntry, refresh_all env (l.map f) = refresh_all env l := by
  have key : ∀ (l : List ScheduleEntry) (acc : List ScheduleEntry × List String),
      (l.map f).foldl (refresh_step env) acc = l.foldl (refresh_step env) acc := by
    intro l
    induction l with
    | nil => intro acc; rfl
    | cons a t ih =>
      intro acc
      rw [List.map_cons, List.foldl_cons, List.foldl_cons,
        refresh_step_congr env acc (f a) a (hf a), ih]
  intro l
  exact key l ([], [])

/-! ## Parametricity of the optimisation pass in the counter position -/

/-- `Forall₂` respects concatenation. -/
theorem forall2_append {α : Type} {R : α → α → Prop} :
    ∀ {l1 l2 u1 u2 : List α}, List.Forall₂ R l1 l2 → List.Forall₂ R u1 u2 →
      List.Forall₂ R (l1 ++ u1) (l2 ++ u2) := by
  intro l1 l2 u1 u2 h hu
  induction h with
  | nil => exact hu
  | cons hab hrest ih => exact List.Forall₂.cons hab ih

/-- The synthesized ferry leg is the same for any two counter positions,
apart from the issued id itself. -/
theorem mkAutoEntry_rel (env : Env) (i1 i2 : ℕ) (chosen : AircraftState)
    (entry : ScheduleEntry) (rs re : Time) (rh : ℚ) :
    AutoRel (mkAutoEntry env i1 chosen entry rs re rh)
      (mkAutoEntry env i2 chosen entry rs re rh) :=
  ⟨rfl, rfl, rfl⟩

/-- A commitment attempt started at two counter positions behaves the same
way up to the ids of the AutoSegments. -/
theorem commit_candidate_rel (env : Env) (info : AircraftInfo)
    (st : List AircraftState) (er : List String) (au1 au2 : List ScheduleEntry)
    (i1 i2 : ℕ) (asg : List (ScheduleEntry × String)) (entry : ScheduleEntry)
    (cands : List AircraftState) (hr : List.Forall₂ AutoRel au1 au2) :
    PassRel (commit_candidate env info ⟨st, er, au1, i1, asg⟩ entry cands)
      (commit_candidate env info ⟨st, er, au2, i2, asg⟩ entry cands) := by
  cases hsel : select_candidate env cands entry info with
  | none =>
    unfold commit_candidate
    rw [hsel]
    exact ⟨rfl, rfl, rfl, hr⟩
  | some pw =>
    obtain ⟨chosen, w⟩ := pw
    rw [commit_candidate_some env info ⟨st, er, au1, i1, asg⟩ entry cands chosen w hsel,
      commit_candidate_some env info ⟨st, er, au2, i2, asg⟩ entry cands chosen w hsel]
    refine ⟨rfl, rfl, rfl, ?_⟩
    show List.Forall₂ AutoRel
      (if w.2.2 > 0 then au1 ++ [mkAutoEntry env i1 chosen entry w.1 w.2.1 w.2.2] else au1)
      (if w.2.2 > 0 then au2 ++ [mkAutoEntry env i2 chosen entry w.1 w.2.1 w.2.2] else au2)
    split_ifs with hw
    · exact forall2_append hr
        (List.Forall₂.cons (mkAutoEntry_rel env i1 i2 chosen entry w.1 w.2.1 w.2.2)
          List.Forall₂.nil)
    · exact hr

/-- One mission processed from two counter positions behaves the same way up
to the ids of the AutoSegments. -/
theorem process_entry_rel (env : Env) (info : AircraftInfo)
    (st : List AircraftState) (er : List String) (au1 au2 : List ScheduleEntry)
    (i1 i2 : ℕ) (asg : List (ScheduleEntry × String)) (entry : ScheduleEntry)
    (hr : List.Forall₂ AutoRel au1 au2) :
    PassRel (process_entry env info ⟨st, er, au1, i1, asg⟩ entry)
      (process_entry env info ⟨st, er, au2, i2, asg⟩ entry) := by
  have hgen : ∀ rp : ℤ,
      PassRel (general_candidates env info ⟨st, er, au1, i1, asg⟩ entry rp)
        (general_candidates env info ⟨st, er, au2, i2, asg⟩ entry rp) := by
    intro rp
    unfold general_candidates
    dsimp only
    split_ifs with hempty
    · exact ⟨rfl, rfl, rfl, hr⟩
    · exact commit_candidate_rel env info st er au1 au2 i1 i2 asg entry _ hr
  cases hreq : entry.requested_registration with
  | none =>
    simp only [process_entry, hreq]
    exact hgen _
  | some req =>
    simp only [process_entry, hreq]
    by_cases hreq2 : req = ""
    · simp only [if_pos hreq2]
      exact hgen _
    · simp only [if_neg hreq2]
      cases hfind : st.find? (fun s => s.registration == req) with
      | none => exact ⟨rfl, rfl, rfl, hr⟩
      | some requested =>
        dsimp only
        split_ifs with hcap
        · exact ⟨rfl, rfl, rfl, hr⟩
        · exact commit_candidate_rel env info st er au1 au2 i1 i2 asg entry _ hr

/-- The per-type mission fold preserves the up-to-id relation. -/
theorem process_fold_rel (env : Env) (info : AircraftInfo) :
    ∀ (l : List ScheduleEntry) (p q : PassState), PassRel p q →
      PassRel (l.foldl (process_entry env info) p)
        (l.foldl (process_entry env info) q) := by
  intro l
  induction l with
  | nil => intro p q h; exact h
  | cons a t ih =>
    intro p q h
    rw [List.foldl_cons, List.foldl_cons]
    apply ih
    obtain ⟨ps, pe, pau, pi, pasg⟩ := p
    obtain ⟨qs, qe, qau, qi, qasg⟩ := q
    obtain ⟨hs, he, ha, hr⟩ := h
    dsimp only at hs he ha hr
    subst hs
    subst he
    subst ha
    exact process_entry_rel env info ps pe pau qau pi qi pasg a hr

/-- One type processed from two counter positions behaves the same way up to
the ids of the AutoSegments. -/
theorem run_type_rel (env : Env) (fleet : List FleetAircraft)
    (entriesAll : List ScheduleEntry) (tk : String) (p q : PassState)
    (h : PassRel p q) :
    PassRel (run_type env fleet entriesAll p tk)
      (run_type env fleet entriesAll q tk) := by
  unfold run_type
  cases hinfo : get_aircraft_info (some tk) with
  | none => exact h
  | some info =>
    dsimp only
    split_ifs with hempty
    · exact ⟨h.1, by rw [h.2.1], h.2.2.1, h.2.2.2⟩
    · exact process_fold_rel env info _ _ _ ⟨rfl, h.2.1, h.2.2.1, h.2.2.2⟩

/-- The optimisation pass started at two counter positions produces the same
aircraft states, diagnostics and commitments, and AutoSegments equal up to
their ids. -/
theorem optimise_pass_rel (env : Env) (fleet : List FleetAircraft)
    (cleared : List ScheduleEntry) (i1 i2 : ℕ) :
    PassRel (optimise_pass env fleet cleared i1)
      (optimise_pass env fleet cleared i2) := by
  unfold optimise_pass
  have key : ∀ (ks : List String) (p q : PassState), PassRel p q →
      PassRel (ks.foldl (run_type env fleet cleared) p)
        (ks.foldl (run_type env fleet cleared) q) := by
    intro ks
    induction ks with
    | nil => intro p q h; exact h
    | cons k t ih =>
      intro p q h
      rw [List.foldl_cons, List.foldl_cons]
      exact ih _ _ (run_type_rel env fleet cleared k p q h)
  exact key _ _ _ ⟨rfl, rfl, rfl, List.Forall₂.nil⟩

/-! ## The scrubbed payload ignores AutoSegment ids -/

/-- `AutoRel` is symmetric. -/
theorem autoRel_symm (a b : ScheduleEntry) (h : AutoRel a b) : AutoRel b a :=
  ⟨h.1.symm, h.2.2, h.2.1⟩

/-- `Forall₂ AutoRel` is symmetric. -/
theorem forall2_autoRel_symm (l1 l2 : List ScheduleEntry)
    (h : List.Forall₂ AutoRel l1 l2) : List.Forall₂ AutoRel l2 l1 := by
  induction h with
  | nil => exact List.Forall₂.nil
  | cons hab hrest ih => exact List.Forall₂.cons (autoRel_symm _ _ hab) ih

/-- `TimelineRel` is reflexive, so a shared list is pointwise related. -/
theorem forall2_rel_refl (l : List ScheduleEntry) :
    List.Forall₂ TimelineRel l l := by
  induction l with
  | nil => exact List.Forall₂.nil
  | cons a t ih => exact List.Forall₂.cons (Or.inl rfl) ih

/-- `TimelineRel` determines the timeline sort key. -/
theorem timeline_rel_key (a b : ScheduleEntry) (h : TimelineRel a b) :
    a.departure_time = b.departure_time ∧ a.auto_generated = b.auto_generated := by
  rcases h with rfl | ⟨hstrip, h1, h2⟩
  · exact ⟨rfl, rfl⟩
  · constructor
    · have hdt := congrArg ScheduleEntry.departure_time hstrip
      simpa [strip_auto_id] using hdt
    · rw [h1, h2]

/-- The timeline comparison is invariant under `TimelineRel` on both sides. -/
theorem timeline_le_congr (a b c d : ScheduleEntry) (hab : TimelineRel a b)
    (hcd : TimelineRel c d) : timeline_le a c = timeline_le b d := by
  obtain ⟨h1, h2⟩ := timeline_rel_key a b hab
  obtain ⟨h3, h4⟩ := timeline_rel_key c d hcd
  unfold timeline_le
  rw [h1, h2, h3, h4]

/-- Stable insertion sends `TimelineRel`-related inputs over
`TimelineRel`-related lists to `TimelineRel`-related lists. -/
theorem insertStable_forall2 (x y : ScheduleEntry) (hxy : TimelineRel x y) :
    ∀ l1 l2 : List ScheduleEntry, List.Forall₂ TimelineRel l1 l2 →
      List.Forall₂ TimelineRel (insertStable timeline_le x l1)
        (insertStable timeline_le y l2) := by
  intro l1 l2 h
  induction h with
  | nil => exact List.Forall₂.cons hxy List.Forall₂.nil
  | cons hzw hrest ih =>
    rename_i z w zs ws
    simp only [insertStable]
    rw [timeline_le_congr x y z w hxy hzw]
    split_ifs with hc
    · exact List.Forall₂.cons hxy (List.Forall₂.cons hzw hrest)
    · exact List.Forall₂.cons hzw ih

/-- Stable sorting preserves pointwise `TimelineRel`. -/
theorem sortStable_forall2 :
    ∀ l1 l2 : List ScheduleEntry, List.Forall₂ TimelineRel l1 l2 →
      List.Forall₂ TimelineRel (sortStable timeline_le l1)
        (sortStable timeline_le l2) := by
  intro l1 l2 h
  induction h with
  | nil => exact List.Forall₂.nil
  | cons hxy hrest ih =>
    rename_i x y xs ys
    simp only [sortStable, List.foldr_cons]
    exact insertStable_forall2 x y hxy _ _ ih

/-- Pointwise-equal images collapse a `Forall₂` to a `map` equality. -/
theorem map_eq_of_forall2 {α β : Type} (f g : α → β) (R : α → α → Prop)
    (hfg : ∀ a b, R a b → f a = g b) :
    ∀ l1 l2 : List α, List.Forall₂ R l1 l2 → l1.map f = l2.map g := by
  intro l1 l2 h
  induction h with
  | nil => rfl
  | cons hab hrest ih =>
    simp only [List.map_cons]
    rw [hfg _ _ hab, ih]

/-- Scrubbing the rendered id hides the only JSON difference between an
AutoSegment and its id-normalised form. -/
theorem scrub_json_strip (env : Env) (x : ScheduleEntry)
    (hx : x.auto_generated = true) :
    scrub_auto_json (entry_to_json env x) =
      scrub_auto_json (entry_to_json env (strip_auto_id x)) := by
  unfold scrub_auto_json entry_to_json strip_auto_id
  dsimp only
  rw [if_pos hx, if_pos hx]

/-- Timeline-related entries render to the same payload row once the
AutoSegment id is scrubbed. -/
theorem scrub_json_rel (env : Env) (x y : ScheduleEntry) (h : TimelineRel x y) :
    scrub_auto_json (entry_to_json env x) = scrub_auto_json (entry_to_json env y) := by
  rcases h with rfl | ⟨hstrip, hx, hy⟩
  · rfl
  · rw [scrub_json_strip env x hx, scrub_json_strip env y hy, hstrip]

/-- Two states with the same fleet, missions and diagnostics whose
AutoSegments agree up to ids render the same scrubbed payload. -/
theorem scrub_payload_congr (env : Env) (s1 s2 : SystemState)
    (hf : s1.fleet = s2.fleet) (hent : s1.entries = s2.entries)
    (herr : s1.errors = s2.errors)
    (hauto : List.Forall₂ AutoRel s1.autoSegments s2.autoSegments) :
    scrub_payload (build_state_payload env s1) =
      scrub_payload (build_state_payload env s2) := by
  have htl : List.Forall₂ TimelineRel (s1.entries ++ s1.autoSegments)
      (s2.entries ++ s2.autoSegments) := by
    rw [← hent]
    exact forall2_append (forall2_rel_refl s1.entries)
      (List.Forall₂.imp (fun a b hab => Or.inr hab) hauto)
  have hsorted := sortStable_forall2 _ _ htl
  unfold scrub_payload build_state_payload
  dsimp only
  rw [hf, herr]
  congr 1
  rw [List.map_map, List.map_map]
  exact map_eq_of_forall2 _ _ TimelineRel (fun a b hab => scrub_json_rel env a b hab)
    _ _ hsorted

/-! ## C7: recomputation is idempotent up to AutoSegment ids -/

/-- `_optimise_assignments` in terms of the pass over the cleared entries. -/
theorem optimise_assignments_eq (env : Env) (fleet : List FleetAircraft)
    (entries : List ScheduleEntry) (autoId : ℕ) :
    optimise_assignments env fleet entries autoId =
      { entries := (entries.map clear_assignment).map
          (apply_assignments
            (optimise_pass env fleet (entries.map clear_assignment) autoId).assignments),
        autos := (optimise_pass env fleet (entries.map clear_assignment) autoId).autos,
        errors := (optimise_pass env fleet (entries.map clear_assignment) autoId).errors,
        autoId := (optimise_pass env fleet (entries.map clear_assignment) autoId).autoId } :=
  rfl

/-- When every refresh succeeds, a second full recomputation reproduces the
missions, diagnostics and fleet, and its AutoSegments agree with the first
run's up to their counter-issued ids. -/
theorem recalc_twice_ok (env : Env) (s : SystemState)
    (hok : (refresh_all env s.entries).2 = []) :
    (recalculate_schedule env (recalculate_schedule env s)).entries =
        (recalculate_schedule env s).entries ∧
      (recalculate_schedule env (recalculate_schedule env s)).errors =
        (recalculate_schedule env s).errors ∧
      (recalculate_schedule env (recalculate_schedule env s)).fleet =
        (recalculate_schedule env s).fleet ∧
      List.Forall₂ AutoRel (recalculate_schedule env s).autoSegments
        (recalculate_schedule env (recalculate_schedule env s)).autoSegments := by
  have hs1 := recalculate_ok_branch env s hok
  have hent1 : (recalculate_schedule env s).entries =
      ((refresh_all env s.entries).1.map clear_assignment).map
        (apply_assignments
          (optimise_pass env s.fleet ((refresh_all env s.entries).1.map clear_assignment)
            s.autoId).assignments) := by
    rw [hs1]
    dsimp only
    rw [optimise_assignments_eq]
  have herr1 : (recalculate_schedule env s).errors =
      (optimise_pass env s.fleet ((refresh_all env s.entries).1.map clear_assignment)
        s.autoId).errors := by
    rw [hs1]
    dsimp only
    rw [optimise_assignments_eq]
  have hauto1 : (recalculate_schedule env s).autoSegments =
      (optimise_pass env s.fleet ((refresh_all env s.entries).1.map clear_assignment)
        s.autoId).autos := by
    rw [hs1]
    dsimp only
    rw [optimise_assignments_eq]
  have hid1 : (recalculate_schedule env s).autoId =
      (optimise_pass env s.fleet ((refresh_all env s.entries).1.map clear_assignment)
        s.autoId).autoId := by
    rw [hs1]
    dsimp only
    rw [optimise_assignments_eq]
  have hfleet1 : (recalculate_schedule env s).fleet = s.fleet := by
    rw [hs1]
  have href2 : refresh_all env (recalculate_schedule env s).entries =
      refresh_all env s.entries := by
    rw [hent1]
    rw [refresh_all_map_congr env
      (apply_assignments
        (optimise_pass env s.fleet ((refresh_all env s.entries).1.map clear_assignment)
          s.autoId).assignments)
      (clear_apply
        (optimise_pass env s.fleet ((refresh_all env s.entries).1.map clear_assignment)
          s.autoId).assignments)]
    rw [refresh_all_map_congr env clear_assignment clear_clear]
    exact refresh_all_replay env s.entries
  have hE2 : (refresh_all env (recalculate_schedule env s).entries).1 =
      (refresh_all env s.entries).1 := congrArg Prod.fst href2
  have hok2 : (refresh_all env (recalculate_schedule env s).entries).2 = [] := by
    rw [href2]
    exact hok
  have hs2 := recalculate_ok_branch env (recalculate_schedule env s) hok2
  have hrel := optimise_pass_rel env s.fleet
    ((refresh_all env s.entries).1.map clear_assignment) s.autoId
    ((optimise_pass env s.fleet ((refresh_all env s.entries).1.map clear_assignment)
      s.autoId).autoId)
  have hent2 : (recalculate_schedule env (recalculate_schedule env s)).entries =
      ((refresh_all env s.entries).1.map clear_assignment).map
        (apply_assignments
          (optimise_pass env s.fleet ((refresh_all env s.entries).1.map clear_assignment)
            ((optimise_pass env s.fleet
              ((refresh_all env s.entries).1.map clear_assignment) s.autoId).autoId)).assignments) := by
    rw [hs2]
    dsimp only
    rw [hE2, hfleet1, hid1, optimise_assignments_eq]
  have herr2 : (recalculate_schedule env (recalculate_schedule env s)).errors =
      (optimise_pass env s.fleet ((refresh_all env s.entries).1.map clear_assignment)
        ((optimise_pass env s.fleet ((refresh_all env s.entries).1.map clear_assignment)
          s.autoId).autoId)).errors := by
    rw [hs2]
    dsimp only
    rw [hE2, hfleet1, hid1, optimise_assignments_eq]
  have hauto2 : (recalculate_schedule env (recalculate_schedule env s)).autoSegments =
      (optimise_pass env s.fleet ((refresh_all env s.entries).1.map clear_assignment)
        ((optimise_pass env s.fleet ((refresh_all env s.entries).1.map clear_assignment)
          s.autoId).autoId)).autos := by
    rw [hs2]
    dsimp only
    rw [hE2, hfleet1, hid1, optimise_assignments_eq]
  have hfleet2 : (recalculate_schedule env (recalculate_schedule env s)).fleet =
      s.fleet := by
    rw [hs2]
    dsimp only
    exact hfleet1
  refine ⟨?_, ?_, ?_, ?_⟩
  · rw [hent2, hent1, ← hrel.2.2.1]
  · rw [herr2, herr1, ← hrel.2.1]
  · rw [hfleet2, hfleet1]
  · rw [hauto1, hauto2]
    exact hrel.2.2.2

/-- When some refresh fails, the aborted pass is a full fixed point: a second
recomputation reproduces the state exactly. -/
theorem recalc_twice_error (env : Env) (s : SystemState)
    (hbad : (refresh_all env s.entries).2 ≠ []) :
    recalculate_schedule env (recalculate_schedule env s) =
      recalculate_schedule env s := by
  have hs1 := recalculate_error_branch env s hbad
  have href2 : refresh_all env (recalculate_schedule env s).entries =
      refresh_all env s.entries := by
    rw [hs1]
    exact refresh_all_replay env s.entries
  have hbad2 : (refresh_all env (recalculate_schedule env s).entries).2 ≠ [] := by
    rw [href2]
    exact hbad
  have hs2 := recalculate_error_branch env (recalculate_schedule env s) hbad2
  rw [hs2, href2, hs1]

/-- C7 (amended): recomputing an unchanged registry twice is idempotent up to
the AutoSegment ids drawn from the never-reset counter: the second pass
reproduces every mission and every diagnostic, its AutoSegments differ from
the first pass's only in `entry_id`, and after scrubbing the rendered
AutoSegment ids the two `/api/state` snapshots coincide. -/
theorem c7_idempotent_up_to_auto_ids (env : Env) (s : SystemState) :
    (recalculate_schedule env (recalculate_schedule env s)).entries =
        (recalculate_schedule env s).entries ∧
      (recalculate_schedule env (recalculate_schedule env s)).errors =
        (recalculate_schedule env s).errors ∧
      List.Forall₂ AutoRel (recalculate_schedule env s).autoSegments
        (recalculate_schedule env (recalculate_schedule env s)).autoSegments ∧
      scrub_payload
          (build_state_payload env (recalculate_schedule env (recalculate_schedule env s))) =
        scrub_payload (build_state_payload env (recalculate_schedule env s)) := by
  by_cases hok : (refresh_all env s.entries).2 = []
  · obtain ⟨h1, h2, h3, h4⟩ := recalc_twice_ok env s hok
    exact ⟨h1, h2, h4,
      scrub_payload_congr env _ _ h3 h1 h2 (forall2_autoRel_symm _ _ h4)⟩
  · have heq := recalc_twice_error env s hok
    have hauto : (recalculate_schedule env s).autoSegments = [] := by
      rw [recalculate_error_branch env s hok]
    refine ⟨by rw [heq], by rw [heq], ?_, by rw [heq]⟩
    rw [heq, hauto]
    exact List.Forall₂.nil
